import Mathlib

/-!
# node-libuiohook: the hotkey registry and the event matcher of `hook.cpp`

`hook.cpp` holds two implementations behind the same exported names.

* `Win32`: the block under `#ifdef WIN32` (lines 100-551): a registry
  `gThreadData.hotkeys` keyed by a fingerprint of the key list, and a thread
  that polls the key states.
* `Uiohook`: the rest of the file (lines 553-1113): two lists of `Action`s
  that `dispatch_procB` matches against raw key events.

Callbacks (`Nan::Callback`) are opaque handles; creating a `Worker` for a
callback and calling `Send` on it is recorded as the handle appended to the
list of sent callbacks.
-/

namespace Hook

/-- Handle of a JavaScript function wrapped in a `Nan::Callback`. -/
abbrev Callback := Nat

/-- The `modifiers` object of a binding, each field after `ToBoolean`. -/
structure Modifiers where
  shift : Bool
  ctrl : Bool
  alt : Bool
  meta : Bool
deriving DecidableEq, Repr

/-- The JavaScript object `INodeLibuiohookBinding` handed to the register and
unregister entry points (`args[0]`). -/
structure Binds where
  callback : Callback
  eventType : String
  key : String
  modifiers : Modifiers
deriving DecidableEq, Repr

namespace Win32

/-- The code's `typedef int16_t key_t`. -/
abbrev key_t := Int

/-! ### Virtual-key codes of `WinUser.h` used by the key table -/

def VK_LBUTTON : key_t := 0x01
def VK_RBUTTON : key_t := 0x02
def VK_MBUTTON : key_t := 0x04
def VK_XBUTTON1 : key_t := 0x05
def VK_XBUTTON2 : key_t := 0x06
def VK_BACK : key_t := 0x08
def VK_TAB : key_t := 0x09
def VK_CLEAR : key_t := 0x0C
def VK_RETURN : key_t := 0x0D
def VK_SHIFT : key_t := 0x10
def VK_CONTROL : key_t := 0x11
def VK_MENU : key_t := 0x12
def VK_PAUSE : key_t := 0x13
def VK_CAPITAL : key_t := 0x14
def VK_ESCAPE : key_t := 0x1B
def VK_SPACE : key_t := 0x20
def VK_PRIOR : key_t := 0x21
def VK_NEXT : key_t := 0x22
def VK_END : key_t := 0x23
def VK_HOME : key_t := 0x24
def VK_LEFT : key_t := 0x25
def VK_UP : key_t := 0x26
def VK_RIGHT : key_t := 0x27
def VK_DOWN : key_t := 0x28
def VK_SELECT : key_t := 0x29
def VK_PRINT : key_t := 0x2A
def VK_EXECUTE : key_t := 0x2B
def VK_SNAPSHOT : key_t := 0x2C
def VK_INSERT : key_t := 0x2D
def VK_DELETE : key_t := 0x2E
def VK_HELP : key_t := 0x2F
def VK_LWIN : key_t := 0x5B
def VK_RWIN : key_t := 0x5C
def VK_APPS : key_t := 0x5D
def VK_SLEEP : key_t := 0x5F
def VK_NUMPAD0 : key_t := 0x60
def VK_NUMPAD1 : key_t := 0x61
def VK_NUMPAD2 : key_t := 0x62
def VK_NUMPAD3 : key_t := 0x63
def VK_NUMPAD4 : key_t := 0x64
def VK_NUMPAD5 : key_t := 0x65
def VK_NUMPAD6 : key_t := 0x66
def VK_NUMPAD7 : key_t := 0x67
def VK_NUMPAD8 : key_t := 0x68
def VK_NUMPAD9 : key_t := 0x69
def VK_MULTIPLY : key_t := 0x6A
def VK_ADD : key_t := 0x6B
def VK_SEPARATOR : key_t := 0x6C
def VK_SUBTRACT : key_t := 0x6D
def VK_DECIMAL : key_t := 0x6E
def VK_DIVIDE : key_t := 0x6F
def VK_F1 : key_t := 0x70
def VK_F2 : key_t := 0x71
def VK_F3 : key_t := 0x72
def VK_F4 : key_t := 0x73
def VK_F5 : key_t := 0x74
def VK_F6 : key_t := 0x75
def VK_F7 : key_t := 0x76
def VK_F8 : key_t := 0x77
def VK_F9 : key_t := 0x78
def VK_F10 : key_t := 0x79
def VK_F11 : key_t := 0x7A
def VK_F12 : key_t := 0x7B
def VK_F13 : key_t := 0x7C
def VK_F14 : key_t := 0x7D
def VK_F15 : key_t := 0x7E
def VK_F16 : key_t := 0x7F
def VK_F17 : key_t := 0x80
def VK_F18 : key_t := 0x81
def VK_F19 : key_t := 0x82
def VK_F20 : key_t := 0x83
def VK_F21 : key_t := 0x84
def VK_F22 : key_t := 0x85
def VK_F23 : key_t := 0x86
def VK_F24 : key_t := 0x87
def VK_NUMLOCK : key_t := 0x90
def VK_SCROLL : key_t := 0x91
def VK_LSHIFT : key_t := 0xA0
def VK_RSHIFT : key_t := 0xA1
def VK_LCONTROL : key_t := 0xA2
def VK_RCONTROL : key_t := 0xA3
def VK_LMENU : key_t := 0xA4
def VK_RMENU : key_t := 0xA5
def VK_MEDIA_NEXT_TRACK : key_t := 0xB0
def VK_MEDIA_PREV_TRACK : key_t := 0xB1
def VK_MEDIA_STOP : key_t := 0xB2
def VK_MEDIA_PLAY_PAUSE : key_t := 0xB3
def VK_OEM_1 : key_t := 0xBA
def VK_OEM_PLUS : key_t := 0xBB
def VK_OEM_COMMA : key_t := 0xBC
def VK_OEM_MINUS : key_t := 0xBD
def VK_OEM_PERIOD : key_t := 0xBE
def VK_OEM_2 : key_t := 0xBF
def VK_OEM_3 : key_t := 0xC0
def VK_OEM_4 : key_t := 0xDB
def VK_OEM_5 : key_t := 0xDC
def VK_OEM_6 : key_t := 0xDD
def VK_OEM_7 : key_t := 0xDE

/-- The initialiser list of the static `g_KeyMap` of `StringToKeys`
(the `_WIN32` branch), in source order. -/
def g_KeyMap_init : List (String × key_t) :=
  [ ("LeftMouseButton", VK_LBUTTON), ("RightMouseButton", VK_RBUTTON),
    ("MiddleMouseButton", VK_MBUTTON),
    ("X1MouseButton", VK_XBUTTON1), ("X2MouseButton", VK_XBUTTON2),
    ("Backspace", VK_BACK),
    ("Tab", VK_TAB),
    ("Clear", VK_CLEAR),
    ("Enter", VK_RETURN),
    ("Shift", VK_SHIFT), ("ShiftLeft", VK_LSHIFT), ("ShiftRight", VK_RSHIFT),
    ("Control", VK_CONTROL), ("ControlLeft", VK_LCONTROL), ("ControlRight", VK_RCONTROL),
    ("Command", VK_CONTROL), ("LeftCommand", VK_LCONTROL), ("RightCommand", VK_RCONTROL),
    ("CommandOrControl", VK_CONTROL), ("LeftCommandOrControl", VK_LCONTROL),
    ("RightCommandOrControl", VK_RCONTROL),
    ("Alt", VK_MENU), ("AltLeft", VK_LMENU), ("AltRight", VK_RMENU),
    ("Menu", VK_MENU), ("LeftMenu", VK_LMENU), ("RightMenu", VK_RMENU),
    ("OSLeft", VK_LWIN), ("OSRight", VK_RWIN),
    ("Pause", VK_PAUSE),
    ("Capital", VK_CAPITAL), ("CapsLock", VK_CAPITAL),
    ("NumLock", VK_NUMLOCK),
    ("ScrollLock", VK_SCROLL),
    ("Escape", VK_ESCAPE),
    ("Space", VK_SPACE),
    ("PageUp", VK_PRIOR), ("PageDown", VK_NEXT),
    ("Home", VK_HOME), ("End", VK_END),
    ("Left", VK_LEFT), ("Right", VK_RIGHT),
    ("Up", VK_UP), ("Down", VK_DOWN),
    ("Select", VK_SELECT),
    ("Print", VK_PRINT),
    ("Execute", VK_EXECUTE),
    ("Snapshot", VK_SNAPSHOT),
    ("PrintScreen", VK_SNAPSHOT),
    ("Insert", VK_INSERT), ("Delete", VK_DELETE),
    ("Help", VK_HELP),
    ("Apps", VK_APPS),
    ("Sleep", VK_SLEEP),
    ("F1", VK_F1), ("F2", VK_F2), ("F3", VK_F3),
    ("F4", VK_F4), ("F5", VK_F5), ("F6", VK_F6),
    ("F7", VK_F7), ("F8", VK_F8), ("F9", VK_F9),
    ("F10", VK_F10), ("F11", VK_F11), ("F12", VK_F12),
    ("F13", VK_F13), ("F14", VK_F14), ("F15", VK_F15),
    ("F16", VK_F16), ("F17", VK_F17), ("F18", VK_F18),
    ("F19", VK_F19), ("F20", VK_F20), ("F21", VK_F21),
    ("F22", VK_F22), ("F23", VK_F23), ("F24", VK_F24),
    ("Digit0", 0x30), ("Digit1", 0x31), ("Digit2", 0x32),
    ("Digit3", 0x33), ("Digit4", 0x34), ("Digit5", 0x35),
    ("Digit6", 0x36), ("Digit7", 0x37), ("Digit8", 0x38),
    ("Digit9", 0x39),
    ("KeyA", 0x41), ("KeyB", 0x42), ("KeyC", 0x43),
    ("KeyD", 0x44), ("KeyE", 0x45), ("KeyF", 0x46),
    ("KeyG", 0x47), ("KeyH", 0x48), ("KeyI", 0x49),
    ("KeyJ", 0x4A), ("KeyK", 0x4B), ("KeyL", 0x4C),
    ("KeyM", 0x4D), ("KeyN", 0x4E), ("KeyO", 0x4F),
    ("KeyP", 0x50), ("KeyQ", 0x51), ("KeyR", 0x52),
    ("KeyS", 0x53), ("KeyT", 0x54), ("KeyU", 0x55),
    ("KeyV", 0x56), ("KeyW", 0x57), ("KeyX", 0x58),
    ("KeyY", 0x59), ("KeyZ", 0x5A),
    ("Numpad0", VK_NUMPAD0), ("Numpad1", VK_NUMPAD1),
    ("Numpad2", VK_NUMPAD2), ("Numpad3", VK_NUMPAD3),
    ("Numpad4", VK_NUMPAD4), ("Numpad5", VK_NUMPAD5),
    ("Numpad6", VK_NUMPAD6), ("Numpad7", VK_NUMPAD7),
    ("Numpad8", VK_NUMPAD8), ("Numpad9", VK_NUMPAD9),
    ("NumpadMultiply", VK_MULTIPLY), ("NumpadDivide", VK_DIVIDE),
    ("NumpadAdd", VK_ADD), ("NumpadSubtract", VK_SUBTRACT),
    ("Separator", VK_SEPARATOR), ("NumpadDecimal", VK_DECIMAL),
    ("NumLock", VK_NUMLOCK), ("NumpadEnter", VK_RETURN),
    ("Semicolon", VK_OEM_1), ("Equal", VK_OEM_PLUS),
    ("Comma", VK_OEM_COMMA), ("Minus", VK_OEM_MINUS),
    ("Period", VK_OEM_PERIOD), ("Slash", VK_OEM_2),
    ("Backquote", VK_OEM_3), ("BracketLeft", VK_OEM_4),
    ("Backslash", VK_OEM_5), ("BracketRight", VK_OEM_6),
    ("Quote", VK_OEM_7),
    ("ArrowUp", VK_UP), ("ArrowLeft", VK_LEFT),
    ("ArrowRight", VK_RIGHT), ("ArrowDown", VK_DOWN),
    ("MediaPlayPause", VK_MEDIA_PLAY_PAUSE), ("MediaTrackPrevious", VK_MEDIA_PREV_TRACK),
    ("MediaTrackNext", VK_MEDIA_NEXT_TRACK), ("MediaStop", VK_MEDIA_STOP) ]

/-- The code's `g_KeyMap.find(keystr)`: a `std::map` built from an initialiser
list keeps the first pair of each key, so the lookup is the first match. -/
def g_KeyMap_find (keystr : String) : Option key_t :=
  g_KeyMap_init.lookup keystr

/-- The code's `g_KeyMap.at(name)`. `at` throws on an absent name; the four
fixed names it is called with are in the table (`g_KeyMap_at_fixed`), and
the fifth call is guarded by `find`, so the default is never taken. -/
def g_KeyMap_at (name : String) : key_t :=
  (g_KeyMap_find name).getD 0

/-- The code's `StringToKeys(keystr, modifiers)`: the empty list for an
unknown key name, else the four modifier keys with their flags followed by
the key itself, bound. -/
def StringToKeys (keystr : String) (modifiers : Modifiers) : List (key_t × Bool) :=
  match g_KeyMap_find keystr with
  | none => []
  | some _ =>
    let key := g_KeyMap_at keystr
    [ (g_KeyMap_at "Shift", modifiers.shift),
      (g_KeyMap_at "Control", modifiers.ctrl),
      (g_KeyMap_at "Menu", modifiers.alt),
      (g_KeyMap_at "OSLeft", modifiers.meta),
      (key, true) ]

/-! ### The fingerprint -/

/-- One round of the `while` loop of `jenkings_one_at_a_time` on the
`uint32_t` accumulator: add the byte, `hash += hash << 10`,
`hash ^= hash >> 6`. -/
def jenkings_round (hash byte : Nat) : Nat :=
  let h1 := (hash + byte) % 2 ^ 32
  let h2 := (h1 + (h1 <<< 10) % 2 ^ 32) % 2 ^ 32
  h2 ^^^ (h2 >>> 6)

/-- The loop `while (p < sz) ...` of `jenkings_one_at_a_time`, with `n` the
number of iterations left (`sz - p`); `key p` is `key[p].first`. -/
def jenkings_loop (key : Nat → Nat) : Nat → Nat → Nat → Nat
  | 0, _, hash => hash
  | n + 1, p, hash => jenkings_loop key n (p + 1) (jenkings_round hash (key p))

/-- The three statements of `jenkings_one_at_a_time` after the loop:
`hash += hash << 3`, `hash ^= hash >> 11`, `hash += hash << 15`. -/
def jenkings_final (hash : Nat) : Nat :=
  let h1 := (hash + (hash <<< 3) % 2 ^ 32) % 2 ^ 32
  let h2 := h1 ^^^ (h1 >>> 11)
  (h2 + (h2 <<< 15) % 2 ^ 32) % 2 ^ 32

/-- The code's `jenkings_one_at_a_time(key, sz)` on `uint32_t`: `p` and `hash`
start at 0, the loop runs `sz` times. -/
def jenkings_one_at_a_time (key : Nat → Nat) (sz : Nat) : Nat :=
  jenkings_final (jenkings_loop key sz 0 0)

/-- The code's `sizeof(std::pair<key_t, bool>)`: an `int16_t`, a `bool` and one
byte of padding. -/
def sizeof_pair_key_bool : Nat := 4

/-- The code's `sizeof(std::pair<uint8_t, bool>)`. -/
def sizeof_pair_u8_bool : Nat := 2

/-- The code's `sizeof(key_t)`. -/
def sizeof_key_t : Nat := 2

/-- The code's `sizeof(bool)`. -/
def sizeof_bool : Nat := 1

/-- The byte at offset `off` from `keys.data()`. Inside the vector's storage it
is a byte of element `off / 4` (little endian `int16_t` at 0 and 1, the `bool`
at 2); the padding byte and every byte past the storage is whatever the
memory `mem` holds there. -/
def storageByte (keys : List (key_t × Bool)) (mem : Nat → Nat) (off : Nat) : Nat :=
  match keys.get? (off / sizeof_pair_key_bool) with
  | some (k, b) =>
    match off % sizeof_pair_key_bool with
    | 0 => (k % 256).toNat
    | 1 => ((k / 256) % 256).toNat
    | 2 => if b then 1 else 0
    | _ => mem off % 256
  | none => mem off % 256

/-- The code's `HotKey::Stringify(keys)`: the storage of `keys` is read as an
array of `pair<uint8_t, bool>` (`key[p].first` is the byte at `2 * p`) of
`keys.size() * (sizeof(key_t) + sizeof(bool))` elements. -/
def Stringify (mem : Nat → Nat) (keys : List (key_t × Bool)) : Nat :=
  jenkings_one_at_a_time (fun p => storageByte keys mem (sizeof_pair_u8_bool * p))
    (keys.length * (sizeof_key_t + sizeof_bool))

/-! ### The registry -/

/-- The code's `struct HotKey`. -/
structure HotKey where
  keys : List (key_t × Bool)
  cbDown : Option Callback
  cbUp : Option Callback
  wasDown : Bool
deriving DecidableEq, Repr

/-- A `std::map<uint32_t, HotKey>` as its entries in key order. -/
abbrev HotKeyMap := List (Nat × HotKey)

/-- The code's `hotkeys.find(key)`. -/
def HotKeyMap.find (m : HotKeyMap) (key : Nat) : Option HotKey :=
  m.lookup key

/-- The code's `hotkeys.count(key)`. -/
def HotKeyMap.count (m : HotKeyMap) (key : Nat) : Nat :=
  if (m.find key).isSome then 1 else 0

/-- The code's `hotkeys.insert_or_assign(key, hk)`, keeping key order. -/
def HotKeyMap.insert_or_assign : HotKeyMap → Nat → HotKey → HotKeyMap
  | [], key, hk => [(key, hk)]
  | (k, v) :: rest, key, hk =>
    if key < k then (key, hk) :: (k, v) :: rest
    else if key = k then (k, hk) :: rest
    else (k, v) :: HotKeyMap.insert_or_assign rest key hk

/-- The code's `hotkeys.erase(key)`. -/
def HotKeyMap.erase (m : HotKeyMap) (key : Nat) : HotKeyMap :=
  m.filter (fun e => e.1 != key)

/-- An assignment through the iterator `hk = hotkeys.find(key)`:
`hk->second = f(hk->second)`. -/
def HotKeyMap.modify (m : HotKeyMap) (key : Nat) (f : HotKey → HotKey) : HotKeyMap :=
  m.map (fun e => if e.1 = key then (e.1, f e.2) else e)

/-- The code's `struct ThreadData` (the mutex is not modelled): `worker` is
whether the `std::thread` is joinable. -/
structure ThreadData where
  worker : Bool
  hotkeys : HotKeyMap
  shutdown : Bool
deriving DecidableEq, Repr

/-- The initial value of the global `gThreadData`. -/
def gThreadData_init : ThreadData :=
  { worker := false, hotkeys := [], shutdown := false }

/-! ### Register and unregister -/

/-- The code's `RegisterHotkeyJS(args)` of the registry variant, on the global
`gThreadData`; `mem` is the memory `Stringify` reads around its copy of the
key list. The result carries the value given to `args.GetReturnValue()`,
`none` when the function returns without setting one. The test
`hotkeys.count(key)` and the following `hotkeys.find(key)` are the one
`match` on `find`. -/
def RegisterHotkeyJS (mem : Nat → Nat) (binds : Binds) (td : ThreadData) :
    ThreadData × Option Bool :=
  let keys := StringToKeys binds.key binds.modifiers
  let eventString := binds.eventType
  if keys.length = 0 then (td, none)
  else
    let key := Stringify mem keys
    match td.hotkeys.find key with
    | some hk =>
      if eventString = "registerKeydown" then
        if hk.cbDown.isNone then
          ({ td with hotkeys :=
              td.hotkeys.modify key (fun h => { h with cbDown := some binds.callback }) },
            some true)
        else (td, some false)
      else if eventString = "registerKeyup" then
        if hk.cbUp.isNone then
          ({ td with hotkeys :=
              td.hotkeys.modify key (fun h => { h with cbUp := some binds.callback }) },
            some true)
        else (td, some false)
      else (td, some true)
    | none =>
      let hk : HotKey :=
        { keys := keys
          cbDown := if eventString = "registerKeydown" then some binds.callback else none
          cbUp :=
            if eventString = "registerKeydown" then none
            else if eventString = "registerKeyup" then some binds.callback else none
          wasDown := false }
      ({ td with hotkeys := td.hotkeys.insert_or_assign key hk }, some true)

/-- The test at the end of `UnregisterHotkeyJS`: erase the entry when both
callbacks are null. -/
def eraseIfUnbound (m : HotKeyMap) (key : Nat) : HotKeyMap :=
  match m.find key with
  | some hk => if hk.cbUp.isNone && hk.cbDown.isNone then m.erase key else m
  | none => m

/-- The code's `UnregisterHotkeyJS(args)` of the registry variant. In the
`"registerKeyup"` branch the code tests `cbUp` and assigns
`hk->second.cbDown = nullptr` (line 531). -/
def UnregisterHotkeyJS (mem : Nat → Nat) (binds : Binds) (td : ThreadData) :
    ThreadData × Option Bool :=
  let keys := StringToKeys binds.key binds.modifiers
  let eventString := binds.eventType
  if keys.length = 0 then (td, none)
  else
    let key := Stringify mem keys
    match td.hotkeys.find key with
    | none => (td, some false)
    | some hk =>
      if eventString = "registerKeydown" then
        if hk.cbDown.isSome then
          let m := td.hotkeys.modify key (fun h => { h with cbDown := none })
          ({ td with hotkeys := eraseIfUnbound m key }, some true)
        else (td, some false)
      else if eventString = "registerKeyup" then
        if hk.cbUp.isSome then
          let m := td.hotkeys.modify key (fun h => { h with cbDown := none })
          ({ td with hotkeys := eraseIfUnbound m key }, some true)
        else (td, some false)
      else ({ td with hotkeys := eraseIfUnbound td.hotkeys key }, some true)

/-- The code's `UnregisterHotkeysJS(args)`: `gThreadData.hotkeys.clear()`. -/
def UnregisterHotkeysJS (td : ThreadData) : ThreadData :=
  { td with hotkeys := [] }

/-! ### The polling thread -/

/-- The code's `isKeyDown(k)`: `(bool)(GetAsyncKeyState(k) >> 15)` on the
`SHORT` the system call returns. -/
def isKeyDown (GetAsyncKeyState : Int → Int) (k : key_t) : Bool :=
  decide (GetAsyncKeyState k >>> 15 ≠ 0)

/-- The inner loop of `HotKeyThread` over `hk.second.keys`, threading
`allPressed`. -/
def keysLoop (GetAsyncKeyState : Int → Int) (wasDown : Bool) :
    List (key_t × Bool) → Bool → Bool
  | [], allPressed => allPressed
  | k :: rest, allPressed =>
    let isBound := k.2
    let isPressed := isKeyDown GetAsyncKeyState k.1
    if isBound && !isPressed then
      keysLoop GetAsyncKeyState wasDown rest false
    else if !isBound && isPressed then
      if !wasDown then keysLoop GetAsyncKeyState wasDown rest false
      else keysLoop GetAsyncKeyState wasDown rest allPressed
    else keysLoop GetAsyncKeyState wasDown rest allPressed

/-- The body of `for (auto& hk : td->hotkeys)` for one hotkey: the new value
of the hotkey and the callbacks sent. -/
def testHotkey (GetAsyncKeyState : Int → Int) (hk : HotKey) : HotKey × List Callback :=
  let allPressed := keysLoop GetAsyncKeyState hk.wasDown hk.keys true
  if allPressed && !hk.wasDown then
    ({ hk with wasDown := true },
      match hk.cbDown with
      | some cb => [cb]
      | none => [])
  else if !allPressed && hk.wasDown then
    ({ hk with wasDown := false },
      match hk.cbUp with
      | some cb => [cb]
      | none => [])
  else (hk, [])

/-- The loop `for (auto& hk : td->hotkeys)` of one pass of `HotKeyThread`, in
map order: the new map and the callbacks sent, in order. -/
def testHotkeys (GetAsyncKeyState : Int → Int) : HotKeyMap → HotKeyMap × List Callback
  | [] => ([], [])
  | (key, hk) :: rest =>
    let r := testHotkey GetAsyncKeyState hk
    let rs := testHotkeys GetAsyncKeyState rest
    ((key, r.1) :: rs.1, r.2 ++ rs.2)

/-- One iteration of the body of `while (!td->shutdown)` in `HotKeyThread`, over
the key states `GetAsyncKeyState` answers during the pass. -/
def HotKeyThread_pass (GetAsyncKeyState : Int → Int) (td : ThreadData) :
    ThreadData × List Callback :=
  let r := testHotkeys GetAsyncKeyState td.hotkeys
  ({ td with hotkeys := r.1 }, r.2)

/-- One evaluation of the loop condition `while (!td->shutdown)` of
`HotKeyThread` and, when it holds, one run of the loop body: `none` when the
loop is left, after which the thread returns 0. -/
def HotKeyThread_step (GetAsyncKeyState : Int → Int) (td : ThreadData) :
    Option (ThreadData × List Callback) :=
  if !td.shutdown then some (HotKeyThread_pass GetAsyncKeyState td) else none

/-! ### Start and stop of the polling thread -/

/-- What a call does to the worker thread: `spawn` is the construction
`std::thread(HotKeyThread, &gThreadData)`, `join` is `gThreadData.worker.join()`. -/
inductive ThreadEvent where
  | spawn
  | join
deriving DecidableEq, Repr

/-- The code's `StartHotkeyThreadJS(args)` of the registry variant (lines
213-225): the new `gThreadData`, the value given to `args.GetReturnValue()` and
what was done to the worker thread. -/
def StartHotkeyThreadJS (td : ThreadData) : ThreadData × Option Bool × List ThreadEvent :=
  if td.worker then (td, some false, [])
  else ({ td with worker := true }, some true, [ThreadEvent.spawn])

/-- The code's `StopHotkeyThreadJS(args)` of the registry variant (lines
227-238): after `join` the `std::thread` is no longer joinable. -/
def StopHotkeyThreadJS (td : ThreadData) : ThreadData × Option Bool × List ThreadEvent :=
  if !td.worker then (td, some false, [])
  else ({ td with shutdown := true, worker := false }, some true, [ThreadEvent.join])

/-! ### Sequences of registry calls -/

/-- A call of one of the three registry entry points, with the memory
`Stringify` reads during the call. -/
inductive RegistryCall where
  | register (mem : Nat → Nat) (binds : Binds)
  | unregister (mem : Nat → Nat) (binds : Binds)
  | unregisterAll

/-- The registry state after one call. -/
def RegistryCall.run : RegistryCall → ThreadData → ThreadData
  | RegistryCall.register mem binds, td => (RegisterHotkeyJS mem binds td).1
  | RegistryCall.unregister mem binds, td => (UnregisterHotkeyJS mem binds td).1
  | RegistryCall.unregisterAll, td => UnregisterHotkeysJS td

/-- The registry state after a sequence of calls, first call first. -/
def runCalls : List RegistryCall → ThreadData → ThreadData
  | [], td => td
  | call :: rest, td => runCalls rest (call.run td)

/-! ### The bytes `Stringify` reads -/

/-- The byte offsets from `keys.data()` of the elements `key[p]`, `p < sz`, that
`jenkings_one_at_a_time` reads for `Stringify(keys)`, in order: element `p` of
the `pair<uint8_t, bool>` view starts at `sizeof(pair<uint8_t, bool>) * p`,
and `sz` is `keys.size() * (sizeof(key_t) + sizeof(bool))`. -/
def Stringify_offsets (keys : List (key_t × Bool)) : List Nat :=
  (List.range (keys.length * (sizeof_key_t + sizeof_bool))).map
    (fun p => sizeof_pair_u8_bool * p)

/-- The size in bytes of the storage of the vector:
`keys.size() * sizeof(std::pair<key_t, bool>)`. -/
def storage_bytes (keys : List (key_t × Bool)) : Nat :=
  keys.length * sizeof_pair_key_bool

/-! ### Concrete inputs of the evaluations -/

/-- Memory that holds a zero byte everywhere the key list does not define it. -/
def zeroMem : Nat → Nat := fun _ => 0

/-- Memory that differs from `zeroMem` in the one byte at offset 20, the first
byte after the storage of a five-element key list. -/
def oneAt20 : Nat → Nat := fun off => if off = 20 then 1 else 0

/-- The binding `KeyA` without modifiers, for key-down, with callback `cb`. -/
def keyA_down (cb : Callback) : Binds :=
  { callback := cb, eventType := "registerKeydown", key := "KeyA",
    modifiers := { shift := false, ctrl := false, alt := false, meta := false } }

/-- The binding `KeyA` without modifiers, for key-up, with callback `cb`. -/
def keyA_up (cb : Callback) : Binds :=
  { callback := cb, eventType := "registerKeyup", key := "KeyA",
    modifiers := { shift := false, ctrl := false, alt := false, meta := false } }

/-- The fingerprint of `KeyA` without modifiers over `zeroMem`. -/
def keyA_fingerprint : Nat :=
  Stringify zeroMem (StringToKeys "KeyA"
    { shift := false, ctrl := false, alt := false, meta := false })

/-- The registry after `KeyA` was registered for key-down (callback 1) and
for key-up (callback 2). -/
def td_keyA_both : ThreadData :=
  (RegisterHotkeyJS zeroMem (keyA_up 2)
    (RegisterHotkeyJS zeroMem (keyA_down 1) gThreadData_init).1).1

/-- An un-armed hotkey for Control + `KeyC` with down-callback 1. -/
def hk_ctrl_C : HotKey :=
  { keys := StringToKeys "KeyC" { shift := false, ctrl := true, alt := false, meta := false }
    cbDown := some 1, cbUp := none, wasDown := false }

/-- A registry holding `hk_ctrl_C` alone. -/
def td_ctrl_C : ThreadData :=
  { worker := true, hotkeys := [(5, hk_ctrl_C)], shutdown := false }

/-- Key states with Shift, Control and the C key down (the `SHORT` has its top
bit set) and every other key up. -/
def shift_ctrl_C_down : Int → Int :=
  fun k => if k = VK_SHIFT ∨ k = VK_CONTROL ∨ k = 0x43 then -32768 else 0

/-- Key states with Control and the C key down and every other key up. -/
def ctrl_C_down : Int → Int :=
  fun k => if k = VK_CONTROL ∨ k = 0x43 then -32768 else 0

/-- The binding `KeyA` without modifiers with an event type that is neither
`"registerKeydown"` nor `"registerKeyup"`. -/
def keyA_other : Binds :=
  { callback := 7, eventType := "registerKeypress", key := "KeyA",
    modifiers := { shift := false, ctrl := false, alt := false, meta := false } }

/-- A binding whose key name is not in the key table. -/
def unknown_key_down : Binds :=
  { callback := 7, eventType := "registerKeydown", key := "NoSuchKey",
    modifiers := { shift := false, ctrl := false, alt := false, meta := false } }

/-- The global `gThreadData` after a start, a stop and a second start of the
polling thread. -/
def td_start_stop_start : ThreadData :=
  (StartHotkeyThreadJS (StopHotkeyThreadJS (StartHotkeyThreadJS gThreadData_init).1).1).1

/-- Key states with every key up. -/
def all_up : Int → Int := fun _ => 0

/-- Key states with the C key down and every other key up. -/
def C_down : Int → Int :=
  fun k => if k = 0x43 then -32768 else 0

/-- The registry `td_ctrl_C` after a pass with Control and the C key down: the
hotkey is armed. -/
def td_ctrl_C_armed : ThreadData :=
  (HotKeyThread_pass ctrl_C_down td_ctrl_C).1

end Win32

namespace Uiohook

/-- The `_event_type` enumeration of `uiohook.h`. -/
inductive event_type where
  | EVENT_HOOK_ENABLED
  | EVENT_HOOK_DISABLED
  | EVENT_KEY_TYPED
  | EVENT_KEY_PRESSED
  | EVENT_KEY_RELEASED
  | EVENT_MOUSE_CLICKED
  | EVENT_MOUSE_PRESSED
  | EVENT_MOUSE_RELEASED
  | EVENT_MOUSE_MOVED
  | EVENT_MOUSE_DRAGGED
  | EVENT_MOUSE_WHEEL
deriving DecidableEq, Repr

open event_type

/-! ### Virtual key codes and masks of `uiohook.h` used by the code -/

def VC_ESCAPE : Nat := 0x0001
def VC_F1 : Nat := 0x003B
def VC_F2 : Nat := 0x003C
def VC_F3 : Nat := 0x003D
def VC_F4 : Nat := 0x003E
def VC_F5 : Nat := 0x003F
def VC_F6 : Nat := 0x0040
def VC_F7 : Nat := 0x0041
def VC_F8 : Nat := 0x0042
def VC_F9 : Nat := 0x0043
def VC_F10 : Nat := 0x0044
def VC_F11 : Nat := 0x0057
def VC_F12 : Nat := 0x0058
def VC_F13 : Nat := 0x005B
def VC_F14 : Nat := 0x005C
def VC_F15 : Nat := 0x005D
def VC_F16 : Nat := 0x0063
def VC_F17 : Nat := 0x0064
def VC_F18 : Nat := 0x0065
def VC_F19 : Nat := 0x0066
def VC_F20 : Nat := 0x0067
def VC_F21 : Nat := 0x0068
def VC_F22 : Nat := 0x0069
def VC_F23 : Nat := 0x006A
def VC_F24 : Nat := 0x006B
def VC_1 : Nat := 0x0002
def VC_2 : Nat := 0x0003
def VC_3 : Nat := 0x0004
def VC_4 : Nat := 0x0005
def VC_5 : Nat := 0x0006
def VC_6 : Nat := 0x0007
def VC_7 : Nat := 0x0008
def VC_8 : Nat := 0x0009
def VC_9 : Nat := 0x000A
def VC_0 : Nat := 0x000B
def VC_BACKSPACE : Nat := 0x000E
def VC_TAB : Nat := 0x000F
def VC_A : Nat := 0x001E
def VC_B : Nat := 0x0030
def VC_C : Nat := 0x002E
def VC_D : Nat := 0x0020
def VC_E : Nat := 0x0012
def VC_F : Nat := 0x0021
def VC_G : Nat := 0x0022
def VC_H : Nat := 0x0023
def VC_I : Nat := 0x0017
def VC_J : Nat := 0x0024
def VC_K : Nat := 0x0025
def VC_L : Nat := 0x0026
def VC_M : Nat := 0x0032
def VC_N : Nat := 0x0031
def VC_O : Nat := 0x0018
def VC_P : Nat := 0x0019
def VC_Q : Nat := 0x0010
def VC_R : Nat := 0x0013
def VC_S : Nat := 0x001F
def VC_T : Nat := 0x0014
def VC_U : Nat := 0x0016
def VC_V : Nat := 0x002F
def VC_W : Nat := 0x0011
def VC_X : Nat := 0x002D
def VC_Y : Nat := 0x0015
def VC_Z : Nat := 0x002C
def VC_SHIFT_L : Nat := 0x002A
def VC_SHIFT_R : Nat := 0x0036
def VC_CONTROL_L : Nat := 0x001D
def VC_CONTROL_R : Nat := 0x0E1D
def VC_ALT_L : Nat := 0x0038
def VC_ALT_R : Nat := 0x0E38
def VC_META_L : Nat := 0x0E5B
def VC_META_R : Nat := 0x0E5C
def MASK_SHIFT : Nat := 0x11
def MASK_CTRL : Nat := 0x22
def MASK_META : Nat := 0x44
def MASK_ALT : Nat := 0x88

/-- A `std::map<uint16_t, _event_type>` as its entries in key order. -/
abbrev ModifierMap := List (Nat × event_type)

/-- The code's `map.emplace(std::make_pair(key, state))`: inserts in key order,
and leaves the map alone when the key is present. -/
def ModifierMap.emplace : ModifierMap → Nat → event_type → ModifierMap
  | [], key, state => [(key, state)]
  | (k, v) :: rest, key, state =>
    if key < k then (key, state) :: (k, v) :: rest
    else if key = k then (k, v) :: rest
    else (k, v) :: ModifierMap.emplace rest key state

/-- The code's `it = map.find(key); if (it != map.end()) it->second = state;`. -/
def ModifierMap.assignIfFound (m : ModifierMap) (key : Nat) (state : event_type) :
    ModifierMap :=
  m.map (fun e => if e.1 = key then (e.1, state) else e)

/-- The code's `struct Event`. -/
structure Event where
  key : Nat
  modifiers : ModifierMap
deriving DecidableEq, Repr

/-- The code's `struct Action`. -/
structure Action where
  m_event : event_type
  m_codeEvent : Event
  m_currentState : event_type
  m_js_callBack : Callback
deriving DecidableEq, Repr

/-- The global variables of the variant: `keyCodesArray`, `modifiers`,
`pressedKeyEventCallbacks` and `releasedKeyEventCallbacks`. -/
structure Globals where
  keyCodesArray : List (String × Nat)
  modifiers : ModifierMap
  pressedKeyEventCallbacks : List Action
  releasedKeyEventCallbacks : List Action
deriving DecidableEq, Repr

/-- The globals at program start: every container empty. -/
def Globals.init : Globals :=
  { keyCodesArray := [], modifiers := [],
    pressedKeyEventCallbacks := [], releasedKeyEventCallbacks := [] }

/-- The code's `updateModifierState(key, state)` on the global `modifiers`. -/
def updateModifierState (key : Nat) (state : event_type) (modifiers : ModifierMap) :
    ModifierMap :=
  let m1 :=
    if key = VC_SHIFT_L ∨ key = VC_SHIFT_R then
      (modifiers.assignIfFound VC_SHIFT_L state).assignIfFound VC_SHIFT_R state
    else modifiers
  let m2 :=
    if key = VC_CONTROL_L ∨ key = VC_CONTROL_R then
      (m1.assignIfFound VC_CONTROL_L state).assignIfFound VC_CONTROL_R state
    else m1
  let m3 :=
    if key = VC_ALT_L ∨ key = VC_ALT_R then
      (m2.assignIfFound VC_ALT_L state).assignIfFound VC_ALT_R state
    else m2
  if key = VC_META_L ∨ key = VC_META_R then
    (m3.assignIfFound VC_META_L state).assignIfFound VC_META_R state
  else m3

/-- The table `storeStringKeyCodes` assigns to `keyCodesArray`, in source
order. -/
def keyCodesArray_init : List (String × Nat) :=
  [ ("Escape", VC_ESCAPE),
    ("F1", VC_F1), ("F2", VC_F2), ("F3", VC_F3), ("F4", VC_F4), ("F5", VC_F5),
    ("F6", VC_F6), ("F7", VC_F7), ("F8", VC_F8), ("F9", VC_F9), ("F10", VC_F10),
    ("F11", VC_F11), ("F12", VC_F12), ("F13", VC_F13), ("F14", VC_F14),
    ("F15", VC_F15), ("F16", VC_F16), ("F17", VC_F17), ("F18", VC_F18),
    ("F19", VC_F19), ("F20", VC_F20), ("F21", VC_F21), ("F22", VC_F22),
    ("F23", VC_F23), ("F24", VC_F24),
    ("1", VC_1), ("2", VC_2), ("3", VC_3), ("4", VC_4), ("5", VC_5),
    ("6", VC_6), ("7", VC_7), ("8", VC_8), ("9", VC_9), ("0", VC_0),
    ("Backspace", VC_BACKSPACE),
    ("Tab", VC_TAB),
    ("KeyA", VC_A), ("KeyB", VC_B), ("KeyC", VC_C), ("KeyD", VC_D),
    ("KeyE", VC_E), ("KeyF", VC_F), ("KeyG", VC_G), ("KeyH", VC_H),
    ("KeyI", VC_I), ("KeyJ", VC_J), ("KeyK", VC_K), ("KeyL", VC_L),
    ("KeyM", VC_M), ("KeyN", VC_N), ("KeyO", VC_O), ("KeyP", VC_P),
    ("KeyQ", VC_Q), ("KeyR", VC_R), ("KeyS", VC_S), ("KeyT", VC_T),
    ("KeyU", VC_U), ("KeyV", VC_V), ("KeyW", VC_W), ("KeyX", VC_X),
    ("KeyY", VC_Y), ("KeyZ", VC_Z),
    ("Control", MASK_CTRL),
    ("CommandOrControl", MASK_META),
    ("Command", MASK_META),
    ("Alt", MASK_ALT),
    ("Shift", MASK_SHIFT) ]

/-- The code's `storeStringKeyCodes()`: fills `keyCodesArray` and resets the
eight entries of `modifiers` to released. -/
def storeStringKeyCodes (g : Globals) : Globals :=
  let m0 : ModifierMap := []
  let m1 := m0.emplace VC_SHIFT_L EVENT_KEY_RELEASED
  let m2 := m1.emplace VC_SHIFT_R EVENT_KEY_RELEASED
  let m3 := m2.emplace VC_CONTROL_L EVENT_KEY_RELEASED
  let m4 := m3.emplace VC_CONTROL_R EVENT_KEY_RELEASED
  let m5 := m4.emplace VC_ALT_L EVENT_KEY_RELEASED
  let m6 := m5.emplace VC_ALT_R EVENT_KEY_RELEASED
  let m7 := m6.emplace VC_META_L EVENT_KEY_RELEASED
  let m8 := m7.emplace VC_META_R EVENT_KEY_RELEASED
  { g with keyCodesArray := keyCodesArray_init, modifiers := m8 }

/-- The raw event handed to `dispatch_procB`: its `type` and
`data.keyboard.keycode`. -/
structure uiohook_event where
  type : event_type
  keycode : Nat
deriving DecidableEq, Repr

/-- The loop of `dispatch_procB` over an action's own `m_codeEvent.modifiers`,
threading `modifiersPressed`; it breaks at the first entry that is not
pressed. -/
def modifiersLoop : ModifierMap → Bool → Bool
  | [], modifiersPressed => modifiersPressed
  | modifier :: rest, _ =>
    if modifier.2 ≠ EVENT_KEY_PRESSED then false
    else modifiersLoop rest true

/-- The outer condition of the `EVENT_KEY_PRESSED` loop for one action. -/
def pressedCandidate (keycode : Nat) (a : Action) : Bool :=
  a.m_event = EVENT_KEY_PRESSED && keycode = a.m_codeEvent.key &&
    a.m_currentState ≠ EVENT_KEY_PRESSED

/-- The inner condition `hasModifiers == modifiersPressed`, with the code's
`hasModifiers = modifiers.empty()`. -/
def pressedFires (a : Action) : Bool :=
  let hasModifiers := a.m_codeEvent.modifiers.isEmpty
  let modifiersPressed := modifiersLoop a.m_codeEvent.modifiers false
  hasModifiers == modifiersPressed

/-- The `EVENT_KEY_PRESSED` loop over `pressedKeyEventCallbacks`: the new
vector and the callbacks sent. The loop breaks after the first action that
fires. -/
def pressedLoop (keycode : Nat) : List Action → List Action × List Callback
  | [] => ([], [])
  | a :: rest =>
    if pressedCandidate keycode a then
      if pressedFires a then
        ({ a with m_currentState := EVENT_KEY_PRESSED } :: rest, [a.m_js_callBack])
      else
        let r := pressedLoop keycode rest
        (a :: r.1, r.2)
    else
      let r := pressedLoop keycode rest
      (a :: r.1, r.2)

/-- The first `EVENT_KEY_RELEASED` loop, over `releasedKeyEventCallbacks`: the
callbacks sent. The loop breaks after the first action that matches. -/
def releasedLoop (keycode : Nat) : List Action → List Callback
  | [] => []
  | a :: rest =>
    if a.m_event = EVENT_KEY_RELEASED ∧ keycode = a.m_codeEvent.key then
      [a.m_js_callBack]
    else releasedLoop keycode rest

/-- The second `EVENT_KEY_RELEASED` loop, over `pressedKeyEventCallbacks`: the
first action that is in the pressed state is set to released, then the loop
breaks. -/
def unarmLoop : List Action → List Action
  | [] => []
  | a :: rest =>
    if a.m_event = EVENT_KEY_PRESSED ∧ a.m_currentState = EVENT_KEY_PRESSED then
      { a with m_currentState := EVENT_KEY_RELEASED } :: rest
    else a :: unarmLoop rest

/-- The code's `modifiers.find(keycode) != modifiers.end()`. -/
def ModifierMap.contains (m : ModifierMap) (key : Nat) : Bool :=
  (m.lookup key).isSome

/-- The code's `dispatch_procB(event)` on the globals: the new globals and the
callbacks sent, in order. The two hook events only touch the mutexes, which
are not modelled. -/
def dispatch_procB (event : uiohook_event) (g : Globals) : Globals × List Callback :=
  match event.type with
  | EVENT_KEY_PRESSED =>
    let r := pressedLoop event.keycode g.pressedKeyEventCallbacks
    let modifiers :=
      if g.modifiers.contains event.keycode then
        updateModifierState event.keycode EVENT_KEY_PRESSED g.modifiers
      else g.modifiers
    ({ g with pressedKeyEventCallbacks := r.1, modifiers := modifiers }, r.2)
  | EVENT_KEY_RELEASED =>
    let sent := releasedLoop event.keycode g.releasedKeyEventCallbacks
    let pressed := unarmLoop g.pressedKeyEventCallbacks
    let modifiers :=
      if g.modifiers.contains event.keycode then
        updateModifierState event.keycode EVENT_KEY_RELEASED g.modifiers
      else g.modifiers
    ({ g with pressedKeyEventCallbacks := pressed, modifiers := modifiers }, sent)
  | _ => (g, [])

/-- The modifier map `RegisterHotkeyJS` builds for an action from the four
flags (lines 1062-1080): both sides of each requested modifier, released. -/
def eventModifiers (mods : Modifiers) : ModifierMap :=
  let m0 : ModifierMap := []
  let m1 :=
    if mods.shift then
      (m0.emplace VC_SHIFT_L EVENT_KEY_RELEASED).emplace VC_SHIFT_R EVENT_KEY_RELEASED
    else m0
  let m2 :=
    if mods.ctrl then
      (m1.emplace VC_CONTROL_L EVENT_KEY_RELEASED).emplace VC_CONTROL_R EVENT_KEY_RELEASED
    else m1
  let m3 :=
    if mods.alt then
      (m2.emplace VC_ALT_L EVENT_KEY_RELEASED).emplace VC_ALT_R EVENT_KEY_RELEASED
    else m2
  if mods.meta then
    (m3.emplace VC_META_L EVENT_KEY_RELEASED).emplace VC_META_R EVENT_KEY_RELEASED
  else m3

/-- The code's `RegisterHotkeyJS(args)` of this variant: the new globals and
the value given to `args.GetReturnValue()`. The `uint16_t` field `event.key`
receives the `int` of the table. -/
def RegisterHotkeyJS (binds : Binds) (g : Globals) : Globals × Option Bool :=
  match g.keyCodesArray.lookup binds.key with
  | none => (g, some false)
  | some code =>
    let event : Event :=
      { key := code % 2 ^ 16, modifiers := eventModifiers binds.modifiers }
    let eventString := binds.eventType
    if eventString = "registerKeydown" then
      let action : Action :=
        { m_event := EVENT_KEY_PRESSED, m_codeEvent := event
          m_currentState := EVENT_KEY_RELEASED, m_js_callBack := binds.callback }
      ({ g with pressedKeyEventCallbacks := g.pressedKeyEventCallbacks ++ [action] },
        some true)
    else if eventString = "registerKeyup" then
      let action : Action :=
        { m_event := EVENT_KEY_RELEASED, m_codeEvent := event
          m_currentState := EVENT_KEY_RELEASED, m_js_callBack := binds.callback }
      ({ g with releasedKeyEventCallbacks := g.releasedKeyEventCallbacks ++ [action] },
        some true)
    else (g, some false)

/-- The events of a sequence delivered to `dispatch_procB` one after the
other: the final globals and, for each event in order, the callbacks it
sent. -/
def dispatchAll : List uiohook_event → Globals → Globals × List (List Callback)
  | [], g => (g, [])
  | event :: rest, g =>
    let r := dispatch_procB event g
    let rs := dispatchAll rest r.1
    (rs.1, r.2 :: rs.2)

/-! ### Concrete inputs of the evaluations -/

/-- The binding `KeyC` without modifiers, for key-down, with callback 1. -/
def keyC_down_bare : Binds :=
  { callback := 1, eventType := "registerKeydown", key := "KeyC",
    modifiers := { shift := false, ctrl := false, alt := false, meta := false } }

/-- The binding Control + Shift + `KeyC`, for key-down, with callback 1. -/
def keyC_down_ctrl_shift : Binds :=
  { callback := 1, eventType := "registerKeydown", key := "KeyC",
    modifiers := { shift := true, ctrl := true, alt := false, meta := false } }

/-- The binding Control + `KeyC`, for key-down, with callback 2. -/
def keyC_down_ctrl : Binds :=
  { callback := 2, eventType := "registerKeydown", key := "KeyC",
    modifiers := { shift := false, ctrl := true, alt := false, meta := false } }

/-- The globals after start-up and the registration of Control + Shift +
`KeyC` alone. -/
def g_ctrl_shift_C : Globals :=
  (RegisterHotkeyJS keyC_down_ctrl_shift (storeStringKeyCodes Globals.init)).1

/-- The globals `g_ctrl_shift_C` after the key-pressed event of the left
Control key. -/
def g_ctrl_shift_C_ctrl_down : Globals :=
  (dispatch_procB { type := EVENT_KEY_PRESSED, keycode := VC_CONTROL_L } g_ctrl_shift_C).1

/-- The globals after start-up, two registrations of Control + `KeyC` for
key-down (callbacks 1 and 2, in this order) and the key-pressed event of the
left Control key. -/
def g_two_ctrl_C : Globals :=
  (dispatch_procB { type := EVENT_KEY_PRESSED, keycode := VC_CONTROL_L }
    (RegisterHotkeyJS keyC_down_ctrl
      (RegisterHotkeyJS { keyC_down_ctrl with callback := 1 }
        (storeStringKeyCodes Globals.init)).1).1).1

/-- The modifier flags with Control alone. -/
def ctrl_only : Modifiers :=
  { shift := false, ctrl := true, alt := false, meta := false }

/-- The modifier flags with Shift alone. -/
def shift_only : Modifiers :=
  { shift := true, ctrl := false, alt := false, meta := false }

/-- The globals after start-up and the registration of Control + `KeyC` for
key-down with callback `down` and for key-up with callback `up`. -/
def g_ctrl_C_both (down up : Callback) : Globals :=
  (RegisterHotkeyJS
    { callback := up, eventType := "registerKeyup", key := "KeyC", modifiers := ctrl_only }
    (RegisterHotkeyJS
      { callback := down, eventType := "registerKeydown", key := "KeyC",
        modifiers := ctrl_only }
      (storeStringKeyCodes Globals.init)).1).1

/-- The globals after start-up and two key-up registrations for `KeyC`:
Control + `KeyC` with callback 1, then Shift + `KeyC` with callback 2. -/
def g_two_up_C : Globals :=
  (RegisterHotkeyJS
    { callback := 2, eventType := "registerKeyup", key := "KeyC", modifiers := shift_only }
    (RegisterHotkeyJS
      { callback := 1, eventType := "registerKeyup", key := "KeyC", modifiers := ctrl_only }
      (storeStringKeyCodes Globals.init)).1).1

/-- The globals after start-up, the key-down registrations of Control + `KeyA`
(callback 1) and Control + `KeyC` (callback 2), and the key-pressed events of
`VC_A` and `VC_C`, which arm both. -/
def g_A_and_C_armed : Globals :=
  (dispatchAll
    [{ type := EVENT_KEY_PRESSED, keycode := VC_A },
     { type := EVENT_KEY_PRESSED, keycode := VC_C }]
    (RegisterHotkeyJS
      { callback := 2, eventType := "registerKeydown", key := "KeyC",
        modifiers := ctrl_only }
      (RegisterHotkeyJS
        { callback := 1, eventType := "registerKeydown", key := "KeyA",
          modifiers := ctrl_only }
        (storeStringKeyCodes Globals.init)).1).1).1

end Uiohook

namespace Win32

/-! ## Properties of the registry variant -/

/-- A key name of the table yields the five-element key list. -/
theorem StringToKeys_length_of_known (keystr : String) (modifiers : Modifiers)
    (h : (g_KeyMap_find keystr).isSome) :
    (StringToKeys keystr modifiers).length = 5 := by
  unfold StringToKeys
  cases hf : g_KeyMap_find keystr with
  | none => simp [hf] at h
  | some v => simp

/-- C1 (the code at the failing input): from the empty registry, registering
a key-up callback for `KeyA` and then unregistering key-up for the same
binding returns true both times, and the hotkey is still in the registry
under the binding's fingerprint, its up slot still holding the callback. -/
theorem C1_register_up_unregister_up_keeps_hotkey :
    (g_KeyMap_find "KeyA").isSome = true ∧
    gThreadData_init.hotkeys.find keyA_fingerprint = none ∧
    (RegisterHotkeyJS zeroMem (keyA_up 7) gThreadData_init).2 = some true ∧
    (UnregisterHotkeyJS zeroMem (keyA_up 7)
      (RegisterHotkeyJS zeroMem (keyA_up 7) gThreadData_init).1).2 = some true ∧
    (UnregisterHotkeyJS zeroMem (keyA_up 7)
      (RegisterHotkeyJS zeroMem (keyA_up 7) gThreadData_init).1).1.hotkeys.find
        keyA_fingerprint =
      some { keys := StringToKeys "KeyA" (keyA_up 7).modifiers
             cbDown := none, cbUp := some 7, wasDown := false } := by
  decide

/-- C2 (the code at the failing input): with both slots of the `KeyA` hotkey
populated (down: callback 1, up: callback 2), unregistering key-up returns
true and leaves the hotkey with its down slot empty and its up slot still
holding callback 2: the slot of the other direction was cleared. -/
theorem C2_unregister_up_clears_down_slot :
    td_keyA_both.hotkeys.find keyA_fingerprint =
      some { keys := StringToKeys "KeyA" (keyA_up 0).modifiers
             cbDown := some 1, cbUp := some 2, wasDown := false } ∧
    (UnregisterHotkeyJS zeroMem (keyA_up 0) td_keyA_both).2 = some true ∧
    (UnregisterHotkeyJS zeroMem (keyA_up 0) td_keyA_both).1.hotkeys.find keyA_fingerprint =
      some { keys := StringToKeys "KeyA" (keyA_up 0).modifiers
             cbDown := none, cbUp := some 2, wasDown := false } := by
  decide

/-- C3: called with a key name of the table and a direction (key-down or
key-up), `RegisterHotkeyJS` sets a return value, and that value is false exactly
when the registry already holds a hotkey for the binding's fingerprint whose
slot for that direction is populated; when it returns false the registry
(indeed all of `gThreadData`) is unchanged. -/
theorem C3_register_false_iff_slot_populated (mem : Nat → Nat) (binds : Binds)
    (td : ThreadData)
    (hkey : (g_KeyMap_find binds.key).isSome)
    (hdir : binds.eventType = "registerKeydown" ∨ binds.eventType = "registerKeyup") :
    ((RegisterHotkeyJS mem binds td).2 = some false ∨
        (RegisterHotkeyJS mem binds td).2 = some true) ∧
    ((RegisterHotkeyJS mem binds td).2 = some false ↔
      ∃ hk, td.hotkeys.find (Stringify mem (StringToKeys binds.key binds.modifiers)) = some hk ∧
        ((binds.eventType = "registerKeydown" ∧ hk.cbDown.isSome) ∨
          (binds.eventType = "registerKeyup" ∧ hk.cbUp.isSome))) ∧
    ((RegisterHotkeyJS mem binds td).2 = some false →
      (RegisterHotkeyJS mem binds td).1 = td) := by
  have hlen := StringToKeys_length_of_known binds.key binds.modifiers hkey
  have hne : ("registerKeyup" : String) ≠ "registerKeydown" := by decide
  unfold RegisterHotkeyJS
  simp only [hlen]
  cases hf : td.hotkeys.find (Stringify mem (StringToKeys binds.key binds.modifiers)) with
  | none =>
    rcases hdir with hd | hd <;> simp [hd]
  | some hk =>
    rcases hdir with hd | hd
    · cases hcb : hk.cbDown <;> simp [hd, hcb]
    · cases hcb : hk.cbUp <;> simp [hd, hcb, hne]

/-- C3 at a concrete input: registering key-down for `KeyA` a second time
returns false and leaves the registry as it was. -/
theorem C3_register_false_iff_slot_populated_witness :
    (g_KeyMap_find (keyA_down 9).key).isSome = true ∧
    ((keyA_down 9).eventType = "registerKeydown" ∨
      (keyA_down 9).eventType = "registerKeyup") ∧
    (RegisterHotkeyJS zeroMem (keyA_down 9) td_keyA_both).2 = some false ∧
    (RegisterHotkeyJS zeroMem (keyA_down 9) td_keyA_both).1 = td_keyA_both :=
  have h := C3_register_false_iff_slot_populated zeroMem (keyA_down 9) td_keyA_both
    (by decide) (Or.inl rfl)
  have hfalse : (RegisterHotkeyJS zeroMem (keyA_down 9) td_keyA_both).2 = some false :=
    h.2.1.mpr ⟨{ keys := StringToKeys "KeyA" (keyA_up 0).modifiers
                 cbDown := some 1, cbUp := some 2, wasDown := false },
      by decide, Or.inl ⟨rfl, rfl⟩⟩
  ⟨by decide, Or.inl rfl, hfalse, h.2.2 hfalse⟩

/-- C4: called with a key name of the table and a direction (key-down or
key-up), `UnregisterHotkeyJS` sets a return value, and that value is false
exactly when the registry holds no hotkey for the binding's fingerprint or
the hotkey's slot for that direction is empty; when it returns false the
registry (indeed all of `gThreadData`) is unchanged, so the slot of the other
direction keeps its callback. -/
theorem C4_unregister_false_iff_absent_or_slot_empty (mem : Nat → Nat) (binds : Binds)
    (td : ThreadData)
    (hkey : (g_KeyMap_find binds.key).isSome)
    (hdir : binds.eventType = "registerKeydown" ∨ binds.eventType = "registerKeyup") :
    ((UnregisterHotkeyJS mem binds td).2 = some false ∨
        (UnregisterHotkeyJS mem binds td).2 = some true) ∧
    ((UnregisterHotkeyJS mem binds td).2 = some false ↔
      (td.hotkeys.find (Stringify mem (StringToKeys binds.key binds.modifiers)) = none ∨
        ∃ hk,
          td.hotkeys.find (Stringify mem (StringToKeys binds.key binds.modifiers)) = some hk ∧
          ((binds.eventType = "registerKeydown" ∧ hk.cbDown = none) ∨
            (binds.eventType = "registerKeyup" ∧ hk.cbUp = none)))) ∧
    ((UnregisterHotkeyJS mem binds td).2 = some false →
      (UnregisterHotkeyJS mem binds td).1 = td) := by
  have hlen := StringToKeys_length_of_known binds.key binds.modifiers hkey
  have hne : ("registerKeyup" : String) ≠ "registerKeydown" := by decide
  unfold UnregisterHotkeyJS
  simp only [hlen]
  cases hf : td.hotkeys.find (Stringify mem (StringToKeys binds.key binds.modifiers)) with
  | none => simp
  | some hk =>
    rcases hdir with hd | hd
    · cases hcb : hk.cbDown <;> simp [hd, hcb]
    · cases hcb : hk.cbUp <;> simp [hd, hcb, hne]

/-- C4 at a concrete input: with only the down slot of `KeyA` populated,
unregistering key-up returns false and leaves the registry, and with it the
down slot, as it was. -/
theorem C4_unregister_false_iff_absent_or_slot_empty_witness :
    (g_KeyMap_find (keyA_up 0).key).isSome = true ∧
    ((keyA_up 0).eventType = "registerKeydown" ∨ (keyA_up 0).eventType = "registerKeyup") ∧
    (UnregisterHotkeyJS zeroMem (keyA_up 0)
      (RegisterHotkeyJS zeroMem (keyA_down 1) gThreadData_init).1).2 = some false ∧
    (UnregisterHotkeyJS zeroMem (keyA_up 0)
      (RegisterHotkeyJS zeroMem (keyA_down 1) gThreadData_init).1).1 =
      (RegisterHotkeyJS zeroMem (keyA_down 1) gThreadData_init).1 :=
  have h := C4_unregister_false_iff_absent_or_slot_empty zeroMem (keyA_up 0)
    (RegisterHotkeyJS zeroMem (keyA_down 1) gThreadData_init).1 (by decide) (Or.inr rfl)
  have hfalse : (UnregisterHotkeyJS zeroMem (keyA_up 0)
      (RegisterHotkeyJS zeroMem (keyA_down 1) gThreadData_init).1).2 = some false :=
    h.2.1.mpr (Or.inr ⟨{ keys := StringToKeys "KeyA" (keyA_up 0).modifiers
                         cbDown := some 1, cbUp := none, wasDown := false },
      by decide, Or.inr ⟨rfl, rfl⟩⟩)
  ⟨by decide, Or.inr rfl, hfalse, h.2.2 hfalse⟩

/-- C5: after `UnregisterHotkeysJS` the registry is empty, and a following
`UnregisterHotkeyJS` returns false for every binding whose key name is in the
key table (every binding that could have been registered before), whatever
its modifiers and event type. -/
theorem C5_unregister_after_unregister_all (mem : Nat → Nat) (binds : Binds)
    (td : ThreadData)
    (hkey : (g_KeyMap_find binds.key).isSome) :
    (UnregisterHotkeysJS td).hotkeys = [] ∧
    (UnregisterHotkeyJS mem binds (UnregisterHotkeysJS td)).2 = some false := by
  have hlen := StringToKeys_length_of_known binds.key binds.modifiers hkey
  unfold UnregisterHotkeyJS
  simp [hlen, UnregisterHotkeysJS, HotKeyMap.find]

/-- C5 at a concrete input: after both directions of `KeyA` were registered
and all hotkeys were unregistered, unregistering key-down for `KeyA` returns
false. -/
theorem C5_unregister_after_unregister_all_witness :
    (g_KeyMap_find (keyA_down 0).key).isSome = true ∧
    (UnregisterHotkeysJS td_keyA_both).hotkeys = [] ∧
    (UnregisterHotkeyJS zeroMem (keyA_down 0) (UnregisterHotkeysJS td_keyA_both)).2 =
      some false :=
  ⟨by decide,
    C5_unregister_after_unregister_all zeroMem (keyA_down 0) td_keyA_both (by decide)⟩

/-- C6 (the code at the failing input): for the one key list of `KeyA` without
modifiers, `Stringify` yields two different fingerprints over two memories
that differ only in the byte at offset 20, which lies after the 20 bytes of
the five-element list: the fingerprint is not a function of the key list
alone. -/
theorem C6_fingerprint_depends_on_memory_past_the_keys :
    (StringToKeys "KeyA" (keyA_down 0).modifiers).length * sizeof_pair_key_bool = 20 ∧
    (∀ off, off ≠ 20 → zeroMem off = oneAt20 off) ∧
    Stringify zeroMem (StringToKeys "KeyA" (keyA_down 0).modifiers) = 125164412 ∧
    Stringify oneAt20 (StringToKeys "KeyA" (keyA_down 0).modifiers) ≠ 125164412 := by
  refine ⟨by decide, ?_, by decide, by decide⟩
  intro off hoff
  simp [zeroMem, oneAt20, hoff]

/-! ## Register followed by unregister, key-down -/

/-- After `insert_or_assign(key, hk)` the map holds `hk` at `key`. -/
theorem find_insert_or_assign (m : HotKeyMap) (key : Nat) (hk : HotKey) :
    (m.insert_or_assign key hk).find key = some hk := by
  induction m with
  | nil => simp [HotKeyMap.insert_or_assign, HotKeyMap.find, List.lookup]
  | cons e rest ih =>
    obtain ⟨k, v⟩ := e
    unfold HotKeyMap.insert_or_assign
    by_cases h1 : key < k
    · simp [h1, HotKeyMap.find, List.lookup]
    · by_cases h2 : key = k
      · subst h2
        simp [HotKeyMap.find, List.lookup]
      · have hb : (key == k) = false := by simpa using h2
        simp only [h1, h2, if_false, HotKeyMap.find, List.lookup, hb]
        exact ih

/-- An assignment through the iterator changes the entry found at `key`. -/
theorem find_modify (m : HotKeyMap) (key : Nat) (f : HotKey → HotKey) :
    (m.modify key f).find key = (m.find key).map f := by
  induction m with
  | nil => rfl
  | cons e rest ih =>
    obtain ⟨k, v⟩ := e
    show List.lookup key ((if k = key then (k, f v) else (k, v)) ::
        HotKeyMap.modify rest key f) = Option.map f (List.lookup key ((k, v) :: rest))
    by_cases h : k = key
    · subst h
      rw [if_pos rfl]
      simp [List.lookup]
    · have hb : (key == k) = false := by simpa using fun hh : key = k => h hh.symm
      rw [if_neg h]
      simp only [List.lookup, hb]
      exact ih

/-- After `erase(key)` the map holds nothing at `key`. -/
theorem find_erase (m : HotKeyMap) (key : Nat) : (m.erase key).find key = none := by
  induction m with
  | nil => rfl
  | cons e rest ih =>
    obtain ⟨k, v⟩ := e
    by_cases h : k = key
    · subst h
      simpa [HotKeyMap.erase, HotKeyMap.find, List.filter] using ih
    · have hb : (key == k) = false := by simpa using fun hh : key = k => h hh.symm
      have hb2 : (k != key) = true := by simpa using h
      simp only [HotKeyMap.erase, HotKeyMap.find, List.filter, hb2, List.lookup, hb]
      exact ih

/-- For the key-down direction the round trip of C1 holds when both calls
compute the same fingerprint: from a registry without a hotkey for the
fingerprint, registering key-down and then unregistering key-down returns
true twice and leaves no hotkey for the fingerprint. -/
theorem register_down_unregister_down (mem : Nat → Nat) (binds : Binds) (td : ThreadData)
    (hkey : (g_KeyMap_find binds.key).isSome)
    (hdir : binds.eventType = "registerKeydown")
    (habsent :
      td.hotkeys.find (Stringify mem (StringToKeys binds.key binds.modifiers)) = none) :
    (RegisterHotkeyJS mem binds td).2 = some true ∧
    (UnregisterHotkeyJS mem binds (RegisterHotkeyJS mem binds td).1).2 = some true ∧
    (UnregisterHotkeyJS mem binds (RegisterHotkeyJS mem binds td).1).1.hotkeys.find
      (Stringify mem (StringToKeys binds.key binds.modifiers)) = none := by
  have hlen := StringToKeys_length_of_known binds.key binds.modifiers hkey
  have hreg : RegisterHotkeyJS mem binds td =
      ({ td with hotkeys := (HotKeyMap.insert_or_assign td.hotkeys
          (Stringify mem (StringToKeys binds.key binds.modifiers))
          { keys := StringToKeys binds.key binds.modifiers
            cbDown := some binds.callback, cbUp := none, wasDown := false }) },
        some true) := by
    unfold RegisterHotkeyJS
    simp [hlen, habsent, hdir]
  rw [hreg]
  unfold UnregisterHotkeyJS
  simp [hlen, hdir, find_insert_or_assign, eraseIfUnbound, find_modify, find_erase]

/-- For the key-down direction the statement of C2 holds: when the hotkey for
the binding has both slots populated, unregistering key-down returns true and
leaves the hotkey in the registry with its down slot empty and everything
else, the up slot included, as it was. -/
theorem unregister_down_keeps_up_slot (mem : Nat → Nat) (binds : Binds) (td : ThreadData)
    (hk : HotKey)
    (hkey : (g_KeyMap_find binds.key).isSome)
    (hdir : binds.eventType = "registerKeydown")
    (hfound :
      td.hotkeys.find (Stringify mem (StringToKeys binds.key binds.modifiers)) = some hk)
    (hdown : hk.cbDown.isSome) (hup : hk.cbUp.isSome) :
    (UnregisterHotkeyJS mem binds td).2 = some true ∧
    (UnregisterHotkeyJS mem binds td).1.hotkeys.find
      (Stringify mem (StringToKeys binds.key binds.modifiers)) =
      some { hk with cbDown := none } := by
  have hlen := StringToKeys_length_of_known binds.key binds.modifiers hkey
  have hupn : hk.cbUp.isNone = false := by
    cases h : hk.cbUp with
    | none => simp [h] at hup
    | some v => rfl
  unfold UnregisterHotkeyJS
  simp [hlen, hdir, hfound, hdown, eraseIfUnbound, find_modify, hupn]

/-! ## The fingerprint over a fixed memory -/

/-- Multiplication by a number coprime to `2 ^ 32` is injective on 32-bit
values. -/
theorem mul_mod_injective (c : Nat) (hc : Nat.gcd (2 ^ 32) c = 1) (x y : Nat)
    (hx : x < 2 ^ 32) (hy : y < 2 ^ 32) (h : (c * x) % 2 ^ 32 = (c * y) % 2 ^ 32) :
    x = y := by
  have h1 : x ≡ y [MOD 2 ^ 32] := Nat.ModEq.cancel_left_of_coprime hc h
  have h2 : x % 2 ^ 32 = y % 2 ^ 32 := h1
  rwa [Nat.mod_eq_of_lt hx, Nat.mod_eq_of_lt hy] at h2

/-- The statement `hash += hash << n` on `uint32_t` multiplies by `1 + 2 ^ n`. -/
theorem add_shiftLeft_mod (x n : Nat) :
    (x + (x <<< n) % 2 ^ 32) % 2 ^ 32 = ((1 + 2 ^ n) * x) % 2 ^ 32 := by
  rw [Nat.shiftLeft_eq, Nat.add_mod_mod]
  congr 1
  ring

/-- Applying `a ^= a >> n` twice is `a ^= a >> 2n`. -/
theorem xorShift_twice (a n : Nat) :
    (a ^^^ (a >>> n)) ^^^ ((a ^^^ (a >>> n)) >>> n) = a ^^^ (a >>> (n + n)) := by
  apply Nat.eq_of_testBit_eq
  intro i
  simp only [Nat.testBit_xor, Nat.testBit_shiftRight]
  have hi : n + n + i = n + (n + i) := by omega
  rw [hi]
  cases a.testBit i <;> cases a.testBit (n + i) <;> cases a.testBit (n + (n + i)) <;> rfl

/-- The statement `hash ^= hash >> n` is injective on 32-bit values when
`8 * n` reaches 32. -/
theorem xorShift_injective (n x y : Nat) (hn : 32 ≤ 8 * n)
    (hx : x < 2 ^ 32) (hy : y < 2 ^ 32) (h : x ^^^ (x >>> n) = y ^^^ (y >>> n)) :
    x = y := by
  have e1 : x ^^^ (x >>> (n + n)) = y ^^^ (y >>> (n + n)) := by
    rw [← xorShift_twice x n, ← xorShift_twice y n, h]
  have e2 : x ^^^ (x >>> (n + n + (n + n))) = y ^^^ (y >>> (n + n + (n + n))) := by
    rw [← xorShift_twice x (n + n), ← xorShift_twice y (n + n), e1]
  have e3 : x ^^^ (x >>> (n + n + (n + n) + (n + n + (n + n)))) =
      y ^^^ (y >>> (n + n + (n + n) + (n + n + (n + n)))) := by
    rw [← xorShift_twice x (n + n + (n + n)), ← xorShift_twice y (n + n + (n + n)), e2]
  have hz : ∀ z, z < 2 ^ 32 → z >>> (n + n + (n + n) + (n + n + (n + n))) = 0 := by
    intro z hzlt
    rw [Nat.shiftRight_eq_div_pow]
    apply Nat.div_eq_of_lt
    calc z < 2 ^ 32 := hzlt
      _ ≤ 2 ^ (n + n + (n + n) + (n + n + (n + n))) :=
        Nat.pow_le_pow_right (by norm_num) (by omega)
  rw [hz x hx, hz y hy, Nat.xor_zero, Nat.xor_zero] at e3
  exact e3

/-- A right shift of a 32-bit value is a 32-bit value. -/
theorem shiftRight_lt_two_pow (x n : Nat) (h : x < 2 ^ 32) : x >>> n < 2 ^ 32 := by
  rw [Nat.shiftRight_eq_div_pow]
  exact lt_of_le_of_lt (Nat.div_le_self _ _) h

/-- A round of the loop yields a 32-bit value. -/
theorem jenkings_round_lt (hash byte : Nat) : jenkings_round hash byte < 2 ^ 32 := by
  unfold jenkings_round
  apply Nat.xor_lt_two_pow (Nat.mod_lt _ (by norm_num))
  exact shiftRight_lt_two_pow _ _ (Nat.mod_lt _ (by norm_num))

/-- Two rounds with the same result started from the same sum of accumulator
and byte. -/
theorem jenkings_round_eq (hash byte hash2 byte2 : Nat)
    (h : jenkings_round hash byte = jenkings_round hash2 byte2) :
    (hash + byte) % 2 ^ 32 = (hash2 + byte2) % 2 ^ 32 := by
  unfold jenkings_round at h
  have e1 := xorShift_injective 6 _ _ (by norm_num)
    (Nat.mod_lt _ (by norm_num)) (Nat.mod_lt _ (by norm_num)) h
  rw [add_shiftLeft_mod, add_shiftLeft_mod] at e1
  exact mul_mod_injective _ (by norm_num) _ _
    (Nat.mod_lt _ (by norm_num)) (Nat.mod_lt _ (by norm_num)) e1

/-- A round is injective in the accumulator. -/
theorem jenkings_round_injective (hash hash2 byte : Nat)
    (h1 : hash < 2 ^ 32) (h2 : hash2 < 2 ^ 32)
    (h : jenkings_round hash byte = jenkings_round hash2 byte) : hash = hash2 := by
  have e := jenkings_round_eq hash byte hash2 byte h
  have e1 : hash ≡ hash2 [MOD 2 ^ 32] := Nat.ModEq.add_right_cancel' byte e
  have e2 : hash % 2 ^ 32 = hash2 % 2 ^ 32 := e1
  rwa [Nat.mod_eq_of_lt h1, Nat.mod_eq_of_lt h2] at e2

/-- The loop is injective in the accumulator it starts from. -/
theorem jenkings_loop_injective (key : Nat → Nat) (n p hash hash2 : Nat)
    (h1 : hash < 2 ^ 32) (h2 : hash2 < 2 ^ 32)
    (h : jenkings_loop key n p hash = jenkings_loop key n p hash2) : hash = hash2 := by
  induction n generalizing p hash hash2 with
  | zero => exact h
  | succ n ih =>
    simp only [jenkings_loop] at h
    exact jenkings_round_injective _ _ _ h1 h2
      (ih _ _ _ (jenkings_round_lt _ _) (jenkings_round_lt _ _) h)

/-- The loop yields a 32-bit value from a 32-bit accumulator. -/
theorem jenkings_loop_lt (key : Nat → Nat) (n p hash : Nat) (h : hash < 2 ^ 32) :
    jenkings_loop key n p hash < 2 ^ 32 := by
  induction n generalizing p hash with
  | zero => exact h
  | succ n ih =>
    simp only [jenkings_loop]
    exact ih _ _ (jenkings_round_lt _ _)

/-- The statements after the loop are injective on 32-bit values. -/
theorem jenkings_final_injective (hash hash2 : Nat)
    (h1 : hash < 2 ^ 32) (h2 : hash2 < 2 ^ 32)
    (h : jenkings_final hash = jenkings_final hash2) : hash = hash2 := by
  unfold jenkings_final at h
  simp only [add_shiftLeft_mod] at h
  have e1 := mul_mod_injective _ (by norm_num) _ _
    (Nat.xor_lt_two_pow (Nat.mod_lt _ (by norm_num))
      (shiftRight_lt_two_pow _ _ (Nat.mod_lt _ (by norm_num))))
    (Nat.xor_lt_two_pow (Nat.mod_lt _ (by norm_num))
      (shiftRight_lt_two_pow _ _ (Nat.mod_lt _ (by norm_num)))) h
  have e2 := xorShift_injective 11 _ _ (by norm_num)
    (Nat.mod_lt _ (by norm_num)) (Nat.mod_lt _ (by norm_num)) e1
  exact mul_mod_injective _ (by norm_num) _ _ h1 h2 e2

/-- A successful first-match lookup returns an entry of the list. -/
theorem mem_of_lookup (l : List (String × key_t)) (k : String) (v : key_t)
    (h : l.lookup k = some v) : (k, v) ∈ l := by
  induction l with
  | nil => simp at h
  | cons e rest ih =>
    obtain ⟨k2, v2⟩ := e
    by_cases hk : k = k2
    · subst hk
      simp [List.lookup] at h
      simp [h]
    · have hb : (k == k2) = false := by simpa using hk
      simp only [List.lookup, hb] at h
      exact List.mem_cons_of_mem _ (ih h)

set_option maxRecDepth 100000 in
/-- Every key code of the table fits in a byte. -/
theorem g_KeyMap_at_range (keystr : String) (h : (g_KeyMap_find keystr).isSome) :
    0 ≤ g_KeyMap_at keystr ∧ g_KeyMap_at keystr < 256 := by
  have hall : ∀ e ∈ g_KeyMap_init, 0 ≤ e.2 ∧ e.2 < 256 := by decide
  unfold g_KeyMap_at
  cases hf : g_KeyMap_find keystr with
  | none => simp [hf] at h
  | some v =>
    have hmem : (keystr, v) ∈ g_KeyMap_init := by
      unfold g_KeyMap_find at hf
      exact mem_of_lookup _ _ _ hf
    simpa using hall _ hmem

/-- The key list of a key name of the table. -/
theorem StringToKeys_of_known (keystr : String) (m : Modifiers)
    (h : (g_KeyMap_find keystr).isSome) :
    StringToKeys keystr m =
      [(16, m.shift), (17, m.ctrl), (18, m.alt), (91, m.meta), (g_KeyMap_at keystr, true)] := by
  have e1 : g_KeyMap_at "Shift" = 16 := by decide
  have e2 : g_KeyMap_at "Control" = 17 := by decide
  have e3 : g_KeyMap_at "Menu" = 18 := by decide
  have e4 : g_KeyMap_at "OSLeft" = 91 := by decide
  unfold StringToKeys
  cases hf : g_KeyMap_find keystr with
  | none => simp [hf] at h
  | some v => simp [e1, e2, e3, e4]

/-- The fingerprint of a five-element key list: ten rounds over the bytes of
the list, five rounds over the bytes that follow it in memory, and the
final statements. -/
theorem Stringify_five (mem : Nat → Nat) (s c a w : Bool) (k : key_t) :
    Stringify mem [(16, s), (17, c), (18, a), (91, w), (k, true)] =
      jenkings_final (jenkings_loop (fun p => mem (2 * p) % 256) 5 10
        (jenkings_round (jenkings_round
          (jenkings_loop
            (fun p => storageByte [(16, s), (17, c), (18, a), (91, w)] zeroMem (2 * p)) 8 0 0)
          (k % 256).toNat) 1)) := by
  rfl

/-- The accumulators after the eight bytes of the four modifier entries lie
more than a byte apart for different flags: adding a byte to each gives
the same 32-bit sum only for the same flags and the same byte. -/
theorem modifier_prefix_separated (s c a w s2 c2 a2 w2 : Bool) (kb kb2 : Nat)
    (hkb : kb < 256) (hkb2 : kb2 < 256)
    (h : (jenkings_loop
            (fun p => storageByte [(16, s), (17, c), (18, a), (91, w)] zeroMem (2 * p)) 8 0 0
          + kb) % 2 ^ 32 =
        (jenkings_loop
            (fun p => storageByte [(16, s2), (17, c2), (18, a2), (91, w2)] zeroMem (2 * p)) 8 0 0
          + kb2) % 2 ^ 32) :
    (s = s2 ∧ c = c2 ∧ a = a2 ∧ w = w2) ∧ kb = kb2 := by
  have v : ∀ s c a w : Bool,
      jenkings_loop
        (fun p => storageByte [(16, s), (17, c), (18, a), (91, w)] zeroMem (2 * p)) 8 0 0 =
      (match s, c, a, w with
        | false, false, false, false => 488808673
        | false, false, false, true => 489513746
        | false, false, true, false => 1544672038
        | false, false, true, true => 1544673079
        | false, true, false, false => 1748536219
        | false, true, false, true => 1748537226
        | false, true, true, false => 2939002990
        | false, true, true, true => 2939010073
        | true, false, false, false => 877030938
        | true, false, false, true => 877007849
        | true, false, true, false => 4218632199
        | true, false, true, true => 4218669046
        | true, true, false, false => 1968490870
        | true, true, false, true => 1968491879
        | true, true, true, false => 3005191464
        | true, true, true, true => 3005192479) := by
    decide
  rw [v, v] at h
  have p32 : (2 : Nat) ^ 32 = 4294967296 := by norm_num
  rw [p32] at h
  cases s <;> cases c <;> cases a <;> cases w <;>
    cases s2 <;> cases c2 <;> cases a2 <;> cases w2 <;>
    simp only at h <;>
    first
      | (refine ⟨⟨rfl, rfl, rfl, rfl⟩, ?_⟩; omega)
      | (exfalso; omega)

/-- The low byte of a key code is below 256. -/
theorem low_byte_lt (k : Int) : (k % 256).toNat < 256 := by
  omega

/-- Key codes that fit in a byte are equal when their low bytes are. -/
theorem eq_of_low_byte_eq (k k2 : Int) (hk : 0 ≤ k ∧ k < 256) (hk2 : 0 ≤ k2 ∧ k2 < 256)
    (h : (k % 256).toNat = (k2 % 256).toNat) : k = k2 := by
  omega

/-- Over any one memory content, the fingerprints of the key lists of two
inputs with key names of the table agree only if the key codes and the
four modifier flags agree: read over a fixed memory, the fingerprint has no
collision on the key table. -/
theorem Stringify_injective_over_fixed_memory (mem : Nat → Nat)
    (keystr keystr2 : String) (m m2 : Modifiers)
    (h1 : (g_KeyMap_find keystr).isSome) (h2 : (g_KeyMap_find keystr2).isSome)
    (h : Stringify mem (StringToKeys keystr m) = Stringify mem (StringToKeys keystr2 m2)) :
    g_KeyMap_at keystr = g_KeyMap_at keystr2 ∧ m = m2 := by
  have r1 := g_KeyMap_at_range keystr h1
  have r2 := g_KeyMap_at_range keystr2 h2
  have b1 := low_byte_lt (g_KeyMap_at keystr)
  have b2 := low_byte_lt (g_KeyMap_at keystr2)
  have hkey := eq_of_low_byte_eq _ _ r1 r2
  rw [StringToKeys_of_known keystr m h1, StringToKeys_of_known keystr2 m2 h2,
    Stringify_five, Stringify_five] at h
  have e1 := jenkings_final_injective _ _
    (jenkings_loop_lt _ _ _ _ (jenkings_round_lt _ _))
    (jenkings_loop_lt _ _ _ _ (jenkings_round_lt _ _)) h
  have e2 := jenkings_loop_injective _ _ _ _ _
    (jenkings_round_lt _ _) (jenkings_round_lt _ _) e1
  have e3 := jenkings_round_injective _ _ _
    (jenkings_round_lt _ _) (jenkings_round_lt _ _) e2
  have e4 := jenkings_round_eq _ _ _ _ e3
  have hsep := modifier_prefix_separated _ _ _ _ _ _ _ _
    (g_KeyMap_at keystr % 256).toNat (g_KeyMap_at keystr2 % 256).toNat
    b1 b2 e4
  obtain ⟨⟨hs, hc, ha, hw⟩, hk⟩ := hsep
  refine ⟨hkey hk, ?_⟩
  cases m
  cases m2
  simp_all

/-! ## Properties of the polling pass -/

/-- When every key of the list is pressed exactly if it is bound, the inner
loop leaves `allPressed` as it was. -/
theorem keysLoop_of_exact (state : Int → Int) (wasDown : Bool)
    (keys : List (key_t × Bool)) (allPressed : Bool)
    (h : ∀ kb ∈ keys, isKeyDown state kb.1 = kb.2) :
    keysLoop state wasDown keys allPressed = allPressed := by
  induction keys generalizing allPressed with
  | nil => rfl
  | cons kb rest ih =>
    have hkb := h kb (List.mem_cons_self kb rest)
    have hrest : ∀ x ∈ rest, isKeyDown state x.1 = x.2 :=
      fun x hx => h x (List.mem_cons_of_mem kb hx)
    unfold keysLoop
    cases hb : kb.2 <;> simp [hkb, hb, ih _ hrest]

/-- The map keeps its keys through a pass, and an entry is replaced by the
result of the per-hotkey test; the callbacks that test sends are among those
the pass sends. -/
theorem testHotkeys_entry (state : Int → Int) (m : HotKeyMap) (e : Nat × HotKey)
    (he : e ∈ m) :
    (e.1, (testHotkey state e.2).1) ∈ (testHotkeys state m).1 ∧
    ∀ cb ∈ (testHotkey state e.2).2, cb ∈ (testHotkeys state m).2 := by
  induction m with
  | nil => cases he
  | cons x rest ih =>
    obtain ⟨k, hk⟩ := x
    simp only [testHotkeys]
    rcases List.mem_cons.mp he with hx | hx
    · subst hx
      exact ⟨List.mem_cons_self _ _, fun cb hcb => List.mem_append_left _ hcb⟩
    · exact ⟨List.mem_cons_of_mem _ (ih hx).1,
        fun cb hcb => List.mem_append_right _ ((ih hx).2 cb hcb)⟩

/-- C9 (counterexample): the un-armed hotkey Control + `KeyC` has its primary
key and its required modifier pressed, with Shift, which it does not
require, pressed as well; the pass sends nothing and leaves it un-armed. -/
theorem C9_extra_modifier_blocks_arming :
    hk_ctrl_C.wasDown = false ∧
    hk_ctrl_C.cbDown = some 1 ∧
    (∀ kb ∈ hk_ctrl_C.keys, kb.2 = true → isKeyDown shift_ctrl_C_down kb.1 = true) ∧
    (HotKeyThread_pass shift_ctrl_C_down td_ctrl_C).2 = [] ∧
    (HotKeyThread_pass shift_ctrl_C_down td_ctrl_C).1.hotkeys = [(5, hk_ctrl_C)] := by
  decide

/-- C9 (amended): in one pass of the polling loop over the key states `state`,
every hotkey of the registry that is not armed and whose keys are pressed
exactly as bound (the primary key and every required modifier pressed, every
modifier it does not require released) becomes armed, nothing else of it
changing, and its down-callback, if present, is among the callbacks sent. -/
theorem C9_exact_match_arms (state : Int → Int) (td : ThreadData) (e : Nat × HotKey)
    (he : e ∈ td.hotkeys)
    (hunarmed : e.2.wasDown = false)
    (hexact : ∀ kb ∈ e.2.keys, isKeyDown state kb.1 = kb.2) :
    (e.1, { e.2 with wasDown := true }) ∈ (HotKeyThread_pass state td).1.hotkeys ∧
    ∀ cb, e.2.cbDown = some cb → cb ∈ (HotKeyThread_pass state td).2 := by
  have hloop := keysLoop_of_exact state e.2.wasDown e.2.keys true hexact
  rw [hunarmed] at hloop
  have htest : testHotkey state e.2 =
      ({ e.2 with wasDown := true },
        match e.2.cbDown with
        | some cb => [cb]
        | none => []) := by
    unfold testHotkey
    simp [hloop, hunarmed]
  have hentry := testHotkeys_entry state td.hotkeys e he
  rw [htest] at hentry
  refine ⟨hentry.1, fun cb hcb => hentry.2 cb ?_⟩
  simp [hcb]

/-- C9 (amended) at a concrete input: with Control and the C key down and
nothing else, the un-armed hotkey Control + `KeyC` becomes armed and its
down-callback 1 is sent. -/
theorem C9_exact_match_arms_witness :
    (5, hk_ctrl_C) ∈ td_ctrl_C.hotkeys ∧
    hk_ctrl_C.wasDown = false ∧
    (∀ kb ∈ hk_ctrl_C.keys, isKeyDown ctrl_C_down kb.1 = kb.2) ∧
    (5, { hk_ctrl_C with wasDown := true }) ∈
      (HotKeyThread_pass ctrl_C_down td_ctrl_C).1.hotkeys ∧
    1 ∈ (HotKeyThread_pass ctrl_C_down td_ctrl_C).2 :=
  have h := C9_exact_match_arms ctrl_C_down td_ctrl_C (5, hk_ctrl_C)
    (by decide) (by decide) (by decide)
  ⟨by decide, by decide, by decide, h.1, h.2 1 rfl⟩

/-! ## Start and stop -/

/-- C13: a start while the worker thread is joinable returns false, changes
nothing of `gThreadData` (worker, shutdown flag, registry) and spawns no
thread, in particular the second of two starts in a row; a stop while the
worker thread is not joinable returns false, changes nothing and joins
nothing. -/
theorem C13_start_stop_from_wrong_state (hotkeys : HotKeyMap) (shutdown : Bool) :
    StartHotkeyThreadJS { worker := true, hotkeys := hotkeys, shutdown := shutdown } =
      ({ worker := true, hotkeys := hotkeys, shutdown := shutdown }, some false, []) ∧
    (StartHotkeyThreadJS { worker := false, hotkeys := hotkeys, shutdown := shutdown }).2 =
      (some true, [ThreadEvent.spawn]) ∧
    StartHotkeyThreadJS
        (StartHotkeyThreadJS
          { worker := false, hotkeys := hotkeys, shutdown := shutdown }).1 =
      ((StartHotkeyThreadJS { worker := false, hotkeys := hotkeys, shutdown := shutdown }).1,
        some false, []) ∧
    StopHotkeyThreadJS { worker := false, hotkeys := hotkeys, shutdown := shutdown } =
      ({ worker := false, hotkeys := hotkeys, shutdown := shutdown }, some false, []) := by
  simp [StartHotkeyThreadJS, StopHotkeyThreadJS]

/-- C14 (the code at the failing input): for a key name that is not in the key
table `RegisterHotkeyJS` leaves `gThreadData` unchanged, on the empty registry
and on a registry with a hotkey, but returns without setting a return value:
the caller receives no boolean. -/
theorem C14_unknown_key_sets_no_return_value :
    g_KeyMap_find unknown_key_down.key = none ∧
    StringToKeys unknown_key_down.key unknown_key_down.modifiers = [] ∧
    RegisterHotkeyJS zeroMem unknown_key_down gThreadData_init = (gThreadData_init, none) ∧
    RegisterHotkeyJS zeroMem unknown_key_down td_keyA_both = (td_keyA_both, none) ∧
    (RegisterHotkeyJS zeroMem unknown_key_down gThreadData_init).2 ≠ some false := by
  decide

/-- C15 (the code at the failing input): from the empty registry, one call of
`RegisterHotkeyJS` for `KeyA` with the event type `"registerKeypress"` returns
true and stores a hotkey with both callback slots empty. -/
theorem C15_register_other_event_type_stores_empty_hotkey :
    (RegisterHotkeyJS zeroMem keyA_other gThreadData_init).2 = some true ∧
    (runCalls [RegistryCall.register zeroMem keyA_other] gThreadData_init).hotkeys =
      [(keyA_fingerprint,
        { keys := StringToKeys "KeyA" keyA_other.modifiers
          cbDown := none, cbUp := none, wasDown := false })] := by
  decide

/-- C18 (the code at the failing input): a start, a stop and a second start
all return true, the second start spawns a thread, and `gThreadData` then has
the shutdown flag set, as the stop left it: the loop condition of the new
thread fails at its first evaluation, whatever the key states, and no pass
over the hotkeys is made. -/
theorem C18_restarted_thread_leaves_loop_at_once :
    (StartHotkeyThreadJS gThreadData_init).2 = (some true, [ThreadEvent.spawn]) ∧
    (StopHotkeyThreadJS (StartHotkeyThreadJS gThreadData_init).1).2 =
      (some true, [ThreadEvent.join]) ∧
    (StopHotkeyThreadJS (StartHotkeyThreadJS gThreadData_init).1).1 ≠ gThreadData_init ∧
    (StartHotkeyThreadJS
      (StopHotkeyThreadJS (StartHotkeyThreadJS gThreadData_init).1).1).2 =
      (some true, [ThreadEvent.spawn]) ∧
    td_start_stop_start.shutdown = true ∧
    (HotKeyThread_step all_up gThreadData_init).isSome = true ∧
    ∀ state, HotKeyThread_step state td_start_stop_start = none := by
  refine ⟨by decide, by decide, by decide, by decide, by decide, by decide, ?_⟩
  intro state
  rfl

/-- C19 (the code at the failing input): for the five-element key list of
`KeyA` the storage has 20 bytes and `Stringify` makes the hash read the
fifteen elements at the byte offsets 0, 2, ..., 28; the last five of them,
at 20, 22, 24, 26 and 28, start at or after the end of the storage. -/
theorem C19_reads_past_the_storage :
    (StringToKeys "KeyA" keyA_other.modifiers).length = 5 ∧
    storage_bytes (StringToKeys "KeyA" keyA_other.modifiers) = 20 ∧
    Stringify_offsets (StringToKeys "KeyA" keyA_other.modifiers) =
      [0, 2, 4, 6, 8, 10, 12, 14, 16, 18, 20, 22, 24, 26, 28] ∧
    (Stringify_offsets (StringToKeys "KeyA" keyA_other.modifiers)).filter
        (fun off => decide (storage_bytes (StringToKeys "KeyA" keyA_other.modifiers) ≤ off)) =
      [20, 22, 24, 26, 28] := by
  decide

/-- No entry point and no pass of the polling loop clears the shutdown flag:
once a stop has set it, it stays set. -/
theorem shutdown_stays_set (td : ThreadData) (h : td.shutdown = true) :
    (StartHotkeyThreadJS td).1.shutdown = true ∧
    (StopHotkeyThreadJS td).1.shutdown = true ∧
    (∀ mem binds, (RegisterHotkeyJS mem binds td).1.shutdown = true) ∧
    (∀ mem binds, (UnregisterHotkeyJS mem binds td).1.shutdown = true) ∧
    (UnregisterHotkeysJS td).shutdown = true ∧
    ∀ state, (HotKeyThread_pass state td).1.shutdown = true := by
  refine ⟨?_, ?_, ?_, ?_, h, fun _ => h⟩
  · unfold StartHotkeyThreadJS
    split <;> exact h
  · unfold StopHotkeyThreadJS
    split
    · exact h
    · rfl
  · intro mem binds
    unfold RegisterHotkeyJS
    simp only []
    repeat' split
    all_goals exact h
  · intro mem binds
    unfold UnregisterHotkeyJS
    simp only []
    repeat' split
    all_goals exact h

/-! ## The armed flag after a pass -/

/-- When a bound key of the list is not pressed, the inner loop ends with
`allPressed` false. -/
theorem keysLoop_of_unpressed (state : Int → Int) (wasDown : Bool)
    (keys : List (key_t × Bool)) (allPressed : Bool)
    (h : allPressed = false ∨ ∃ kb ∈ keys, kb.2 = true ∧ isKeyDown state kb.1 = false) :
    keysLoop state wasDown keys allPressed = false := by
  induction keys generalizing allPressed with
  | nil =>
    rcases h with h | ⟨kb, hkb, _⟩
    · simpa [keysLoop] using h
    · cases hkb
  | cons k rest ih =>
    unfold keysLoop
    by_cases hk : k.2 = true ∧ isKeyDown state k.1 = false
    · simp only [hk.1, hk.2, Bool.not_false, Bool.and_self, if_true]
      exact ih false (Or.inl rfl)
    · have hrest : allPressed = false ∨
          ∃ kb ∈ rest, kb.2 = true ∧ isKeyDown state kb.1 = false := by
        rcases h with h | ⟨kb, hkb, hb⟩
        · exact Or.inl h
        · rcases List.mem_cons.mp hkb with heq | hmem
          · subst heq
            exact absurd hb hk
          · exact Or.inr ⟨kb, hmem, hb⟩
      simp only []
      split
      · exact ih false (Or.inl rfl)
      · split
        · split
          · exact ih false (Or.inl rfl)
          · exact ih allPressed hrest
        · exact ih allPressed hrest

/-- The test of one hotkey leaves its key list alone, and leaves it un-armed
when a bound key is not pressed. -/
theorem testHotkey_unarmed (state : Int → Int) (hk : HotKey) :
    (testHotkey state hk).1.keys = hk.keys ∧
    ((∃ kb ∈ hk.keys, kb.2 = true ∧ isKeyDown state kb.1 = false) →
      (testHotkey state hk).1.wasDown = false) := by
  constructor
  · unfold testHotkey
    simp only []
    split
    · rfl
    · split <;> rfl
  · intro h
    have hloop := keysLoop_of_unpressed state hk.wasDown hk.keys true (Or.inr h)
    unfold testHotkey
    simp only [hloop]
    cases hw : hk.wasDown <;> simp [hw]

/-- Every entry of the map after a pass is the tested value of an entry of
the map before it. -/
theorem testHotkeys_mem (state : Int → Int) (m : HotKeyMap) (e : Nat × HotKey)
    (he : e ∈ (testHotkeys state m).1) :
    ∃ e0 ∈ m, e = (e0.1, (testHotkey state e0.2).1) := by
  induction m with
  | nil => simp [testHotkeys] at he
  | cons x rest ih =>
    obtain ⟨k, hk⟩ := x
    simp only [testHotkeys] at he
    rcases List.mem_cons.mp he with hx | hx
    · exact ⟨(k, hk), List.mem_cons_self _ _, hx⟩
    · obtain ⟨e0, he0, heq⟩ := ih hx
      exact ⟨e0, List.mem_cons_of_mem _ he0, heq⟩

/-- C16: after a pass of the polling loop over the key states `state`, a
hotkey of the registry is armed only if its primary key and every modifier
it requires (the entries of its key list with flag true) are pressed in
`state`; when one of them is released the hotkey is left un-armed. -/
theorem C16_armed_only_if_required_keys_pressed (state : Int → Int) (td : ThreadData)
    (e : Nat × HotKey) (he : e ∈ (HotKeyThread_pass state td).1.hotkeys) :
    (e.2.wasDown = true → ∀ kb ∈ e.2.keys, kb.2 = true → isKeyDown state kb.1 = true) ∧
    ((∃ kb ∈ e.2.keys, kb.2 = true ∧ isKeyDown state kb.1 = false) →
      e.2.wasDown = false) := by
  obtain ⟨e0, _, heq⟩ := testHotkeys_mem state td.hotkeys e he
  have hk := testHotkey_unarmed state e0.2
  have hsecond : (∃ kb ∈ e.2.keys, kb.2 = true ∧ isKeyDown state kb.1 = false) →
      e.2.wasDown = false := by
    intro h
    rw [heq] at h ⊢
    simp only [hk.1] at h
    exact hk.2 h
  refine ⟨?_, hsecond⟩
  intro harmed kb hkb hbound
  by_contra hnot
  have hfalse : isKeyDown state kb.1 = false := by simpa using hnot
  rw [hsecond ⟨kb, hkb, hbound, hfalse⟩] at harmed
  cases harmed

/-- C16 at a concrete input: the armed hotkey Control + `KeyC` goes through a
pass with the C key down and Control released; it is in the registry after
the pass, its required key Control is not pressed, and it is un-armed. -/
theorem C16_armed_only_if_required_keys_pressed_witness :
    td_ctrl_C_armed.hotkeys = [(5, { hk_ctrl_C with wasDown := true })] ∧
    (5, hk_ctrl_C) ∈ (HotKeyThread_pass C_down td_ctrl_C_armed).1.hotkeys ∧
    (∃ kb ∈ hk_ctrl_C.keys, kb.2 = true ∧ isKeyDown C_down kb.1 = false) ∧
    hk_ctrl_C.wasDown = false :=
  have h := C16_armed_only_if_required_keys_pressed C_down td_ctrl_C_armed (5, hk_ctrl_C)
    (by decide)
  ⟨by decide, by decide, by decide, h.2 (by decide)⟩

/-! ## The bytes read by the fingerprint -/

/-- The loop of the hash is a left fold of the round over the elements
`p`, `p + 1`, ..., `p + n - 1`. -/
theorem jenkings_loop_eq_foldl (key : Nat → Nat) (n p hash : Nat) :
    jenkings_loop key n p hash =
      (List.range' p n).foldl (fun h q => jenkings_round h (key q)) hash := by
  induction n generalizing p hash with
  | zero => rfl
  | succ n ih =>
    simp only [jenkings_loop, List.range'_succ, List.foldl_cons]
    exact ih _ _

/-- The fingerprint is the hash of the bytes at the offsets `Stringify_offsets`
from `keys.data()`, in order. -/
theorem Stringify_reads_offsets (mem : Nat → Nat) (keys : List (key_t × Bool)) :
    Stringify mem keys =
      jenkings_final ((Stringify_offsets keys).foldl
        (fun h off => jenkings_round h (storageByte keys mem off)) 0) := by
  unfold Stringify jenkings_one_at_a_time Stringify_offsets
  rw [jenkings_loop_eq_foldl, List.foldl_map, List.range_eq_range']

/-- For every non-empty key list one of the offsets read lies at or after the
end of the storage of the list. -/
theorem Stringify_offsets_exceed_storage (keys : List (key_t × Bool)) (h : keys ≠ []) :
    ∃ off ∈ Stringify_offsets keys, storage_bytes keys ≤ off := by
  have hlen : 0 < keys.length := List.length_pos.mpr h
  refine ⟨sizeof_pair_u8_bool * (keys.length * (sizeof_key_t + sizeof_bool) - 1), ?_, ?_⟩
  · unfold Stringify_offsets
    apply List.mem_map.mpr
    refine ⟨keys.length * (sizeof_key_t + sizeof_bool) - 1, ?_, rfl⟩
    rw [List.mem_range]
    simp only [sizeof_key_t, sizeof_bool]
    omega
  · simp only [storage_bytes, sizeof_pair_key_bool, sizeof_pair_u8_bool, sizeof_key_t,
      sizeof_bool]
    omega

/-! ## The callback slots under the two event types of the interface -/

/-- A key that `find` misses is not a key of the map. -/
theorem not_mem_keys_of_find_none (m : HotKeyMap) (key : Nat) (h : m.find key = none) :
    key ∉ m.map Prod.fst := by
  induction m with
  | nil => simp
  | cons e rest ih =>
    obtain ⟨k, v⟩ := e
    by_cases hk : key = k
    · subst hk
      simp [HotKeyMap.find, List.lookup] at h
    · have hb : (key == k) = false := by simpa using hk
      simp only [HotKeyMap.find, List.lookup, hb] at h
      simp only [List.map_cons, List.mem_cons, not_or]
      exact ⟨hk, ih h⟩

/-- In a map with distinct keys `find` returns the value of every entry. -/
theorem find_of_mem (m : HotKeyMap) (e : Nat × HotKey)
    (hnodup : (m.map Prod.fst).Nodup) (he : e ∈ m) : m.find e.1 = some e.2 := by
  induction m with
  | nil => cases he
  | cons x rest ih =>
    obtain ⟨k, v⟩ := x
    simp only [List.map_cons, List.nodup_cons] at hnodup
    rcases List.mem_cons.mp he with hx | hx
    · subst hx
      simp [HotKeyMap.find, List.lookup]
    · have hne : e.1 ≠ k := by
        intro heq
        exact hnodup.1 (heq ▸ List.mem_map_of_mem Prod.fst hx)
      have hb : (e.1 == k) = false := by simpa using hne
      simp only [HotKeyMap.find, List.lookup, hb]
      exact ih hnodup.2 hx

/-- The entries after `insert_or_assign` are the new entry and entries of the
map before. -/
theorem mem_insert_or_assign (m : HotKeyMap) (key : Nat) (hk : HotKey) (e : Nat × HotKey)
    (he : e ∈ m.insert_or_assign key hk) : e = (key, hk) ∨ e ∈ m := by
  induction m with
  | nil =>
    simp only [HotKeyMap.insert_or_assign, List.mem_singleton] at he
    exact Or.inl he
  | cons x rest ih =>
    obtain ⟨k, v⟩ := x
    unfold HotKeyMap.insert_or_assign at he
    by_cases h1 : key < k
    · simp only [h1, if_true] at he
      rcases List.mem_cons.mp he with h | h
      · exact Or.inl h
      · exact Or.inr h
    · by_cases h2 : key = k
      · subst h2
        simp only [lt_irrefl, if_false, if_true] at he
        rcases List.mem_cons.mp he with h | h
        · exact Or.inl h
        · exact Or.inr (List.mem_cons_of_mem _ h)
      · simp only [h1, h2, if_false] at he
        rcases List.mem_cons.mp he with h | h
        · exact Or.inr (h ▸ List.mem_cons_self _ _)
        · rcases ih h with h3 | h3
          · exact Or.inl h3
          · exact Or.inr (List.mem_cons_of_mem _ h3)

/-- Inserting a key the map does not hold keeps the keys distinct. -/
theorem nodup_insert_or_assign (m : HotKeyMap) (key : Nat) (hk : HotKey)
    (hnodup : (m.map Prod.fst).Nodup) (hnew : key ∉ m.map Prod.fst) :
    ((m.insert_or_assign key hk).map Prod.fst).Nodup := by
  induction m with
  | nil => simp [HotKeyMap.insert_or_assign]
  | cons x rest ih =>
    obtain ⟨k, v⟩ := x
    simp only [List.map_cons, List.nodup_cons, List.mem_cons, not_or] at hnodup hnew
    unfold HotKeyMap.insert_or_assign
    by_cases h1 : key < k
    · simp only [h1, if_true, List.map_cons, List.nodup_cons, List.mem_cons, not_or]
      exact ⟨⟨hnew.1, hnew.2⟩, hnodup.1, hnodup.2⟩
    · have h2 : key ≠ k := hnew.1
      simp only [h1, h2, if_false, List.map_cons, List.nodup_cons]
      refine ⟨?_, ih hnodup.2 hnew.2⟩
      intro hmem
      obtain ⟨e, he, hek⟩ := List.mem_map.mp hmem
      rcases mem_insert_or_assign rest key hk e he with h3 | h3
      · rw [h3] at hek
        exact h2 hek
      · exact hnodup.1 (hek ▸ List.mem_map_of_mem Prod.fst h3)

/-- An assignment through the iterator keeps the keys of the map. -/
theorem keys_modify (m : HotKeyMap) (key : Nat) (f : HotKey → HotKey) :
    (m.modify key f).map Prod.fst = m.map Prod.fst := by
  induction m with
  | nil => rfl
  | cons e rest ih =>
    have ih2 : List.map Prod.fst
        (List.map (fun e => if e.1 = key then (e.1, f e.2) else e) rest) =
        List.map Prod.fst rest := ih
    show List.map Prod.fst ((if e.1 = key then (e.1, f e.2) else e) ::
        List.map (fun e => if e.1 = key then (e.1, f e.2) else e) rest) = _
    by_cases h : e.1 = key
    · rw [if_pos h, List.map_cons, List.map_cons, ih2]
    · rw [if_neg h, List.map_cons, List.map_cons, ih2]

/-- An entry after an assignment through the iterator is an entry of the map
before, changed when its key is the one assigned to. -/
theorem mem_modify (m : HotKeyMap) (key : Nat) (f : HotKey → HotKey) (e : Nat × HotKey)
    (he : e ∈ m.modify key f) :
    ∃ e0 ∈ m, e = if e0.1 = key then (e0.1, f e0.2) else e0 := by
  obtain ⟨e0, he0, heq⟩ := List.mem_map.mp he
  exact ⟨e0, he0, heq.symm⟩

/-- Erasing a key keeps the keys distinct and adds no entry. -/
theorem erase_sub (m : HotKeyMap) (key : Nat) (hnodup : (m.map Prod.fst).Nodup) :
    ((m.erase key).map Prod.fst).Nodup ∧ ∀ e ∈ m.erase key, e ∈ m := by
  constructor
  · exact List.Nodup.sublist (List.Sublist.map Prod.fst (List.filter_sublist m)) hnodup
  · intro e he
    exact List.mem_of_mem_filter he

/-- The test at the end of `UnregisterHotkeyJS` keeps the keys distinct and
adds no entry. -/
theorem eraseIfUnbound_sub (m : HotKeyMap) (key : Nat) (hnodup : (m.map Prod.fst).Nodup) :
    ((eraseIfUnbound m key).map Prod.fst).Nodup ∧ ∀ e ∈ eraseIfUnbound m key, e ∈ m := by
  unfold eraseIfUnbound
  split
  · split
    · exact erase_sub m key hnodup
    · exact ⟨hnodup, fun e he => he⟩
  · exact ⟨hnodup, fun e he => he⟩

/-- With one of the two event types of the interface, `RegisterHotkeyJS` keeps
the keys of the registry distinct and every stored hotkey with a populated
slot. -/
theorem register_keeps_slots (mem : Nat → Nat) (binds : Binds) (td : ThreadData)
    (hdir : binds.eventType = "registerKeydown" ∨ binds.eventType = "registerKeyup")
    (hinv : (td.hotkeys.map Prod.fst).Nodup ∧
      ∀ e ∈ td.hotkeys, e.2.cbDown.isSome ∨ e.2.cbUp.isSome) :
    ((RegisterHotkeyJS mem binds td).1.hotkeys.map Prod.fst).Nodup ∧
      ∀ e ∈ (RegisterHotkeyJS mem binds td).1.hotkeys,
        e.2.cbDown.isSome ∨ e.2.cbUp.isSome := by
  have hne : ("registerKeyup" : String) ≠ "registerKeydown" := by decide
  unfold RegisterHotkeyJS
  simp only []
  split
  · exact hinv
  · split
    · rename_i hk hfind
      have hmod : ∀ f : HotKey → HotKey,
          (∀ h, (f h).cbDown.isSome ∨ (f h).cbUp.isSome) →
          (((td.hotkeys.modify (Stringify mem (StringToKeys binds.key binds.modifiers))
              f).map Prod.fst).Nodup ∧
            ∀ e ∈ td.hotkeys.modify (Stringify mem (StringToKeys binds.key binds.modifiers)) f,
              e.2.cbDown.isSome ∨ e.2.cbUp.isSome) := by
        intro f hf
        refine ⟨by rw [keys_modify]; exact hinv.1, ?_⟩
        intro e he
        obtain ⟨e0, he0, heq⟩ := mem_modify _ _ _ e he
        by_cases hkey : e0.1 = Stringify mem (StringToKeys binds.key binds.modifiers)
        · rw [if_pos hkey] at heq
          rw [heq]
          exact hf e0.2
        · rw [if_neg hkey] at heq
          rw [heq]
          exact hinv.2 e0 he0
      rcases hdir with hd | hd
      · simp only [hd, if_true]
        split
        · exact hmod (fun h => { h with cbDown := some binds.callback })
            (fun h => Or.inl rfl)
        · exact hinv
      · simp only [hd, hne, if_true, if_false]
        split
        · exact hmod (fun h => { h with cbUp := some binds.callback })
            (fun h => Or.inr rfl)
        · exact hinv
    · rename_i hfind
      refine ⟨nodup_insert_or_assign _ _ _ hinv.1 (not_mem_keys_of_find_none _ _ hfind), ?_⟩
      intro e he
      rcases mem_insert_or_assign _ _ _ e he with h | h
      · rw [h]
        rcases hdir with hd | hd
        · simp [hd]
        · simp [hd, hne]
      · exact hinv.2 e h

/-- Whatever the event type, `UnregisterHotkeyJS` keeps the keys of the
registry distinct and every stored hotkey with a populated slot. -/
theorem unregister_keeps_slots (mem : Nat → Nat) (binds : Binds) (td : ThreadData)
    (hinv : (td.hotkeys.map Prod.fst).Nodup ∧
      ∀ e ∈ td.hotkeys, e.2.cbDown.isSome ∨ e.2.cbUp.isSome) :
    ((UnregisterHotkeyJS mem binds td).1.hotkeys.map Prod.fst).Nodup ∧
      ∀ e ∈ (UnregisterHotkeyJS mem binds td).1.hotkeys,
        e.2.cbDown.isSome ∨ e.2.cbUp.isSome := by
  have hclear : ∀ hk : HotKey,
      td.hotkeys.find (Stringify mem (StringToKeys binds.key binds.modifiers)) = some hk →
      (((eraseIfUnbound
          (td.hotkeys.modify (Stringify mem (StringToKeys binds.key binds.modifiers))
            (fun h => { h with cbDown := none }))
          (Stringify mem (StringToKeys binds.key binds.modifiers))).map Prod.fst).Nodup ∧
        ∀ e ∈ eraseIfUnbound
          (td.hotkeys.modify (Stringify mem (StringToKeys binds.key binds.modifiers))
            (fun h => { h with cbDown := none }))
          (Stringify mem (StringToKeys binds.key binds.modifiers)),
          e.2.cbDown.isSome ∨ e.2.cbUp.isSome) := by
    intro hk hfind
    have hnodup : ((td.hotkeys.modify (Stringify mem (StringToKeys binds.key binds.modifiers))
        (fun h => { h with cbDown := none })).map Prod.fst).Nodup := by
      rw [keys_modify]
      exact hinv.1
    refine ⟨(eraseIfUnbound_sub _ _ hnodup).1, ?_⟩
    intro e he
    unfold eraseIfUnbound at he
    rw [find_modify, hfind] at he
    simp only [Option.map_some', Option.isNone_none, Bool.and_true] at he
    cases hup : hk.cbUp with
    | none =>
      simp only [hup, Option.isNone_none, if_true] at he
      have hne : e.1 ≠ Stringify mem (StringToKeys binds.key binds.modifiers) := by
        have := (List.mem_filter.mp he).2
        simpa using this
      obtain ⟨e0, he0, heq⟩ := mem_modify _ _ _ e (List.mem_of_mem_filter he)
      by_cases hkey : e0.1 = Stringify mem (StringToKeys binds.key binds.modifiers)
      · rw [if_pos hkey] at heq
        rw [heq] at hne
        exact absurd hkey hne
      · rw [if_neg hkey] at heq
        rw [heq]
        exact hinv.2 e0 he0
    | some cb =>
      simp only [hup, Option.isNone_some, Bool.false_eq_true, if_false] at he
      obtain ⟨e0, he0, heq⟩ := mem_modify _ _ _ e he
      by_cases hkey : e0.1 = Stringify mem (StringToKeys binds.key binds.modifiers)
      · rw [if_pos hkey] at heq
        have hval := find_of_mem td.hotkeys e0 hinv.1 he0
        rw [hkey, hfind] at hval
        have h2 : e0.2 = hk := (Option.some.inj hval).symm
        rw [heq]
        right
        simp [h2, hup]
      · rw [if_neg hkey] at heq
        rw [heq]
        exact hinv.2 e0 he0
  unfold UnregisterHotkeyJS
  simp only []
  split
  · exact hinv
  · split
    · exact hinv
    · rename_i hk hfind
      split
      · split
        · exact hclear hk hfind
        · exact hinv
      · split
        · split
          · exact hclear hk hfind
          · exact hinv
        · have hsub := eraseIfUnbound_sub td.hotkeys
            (Stringify mem (StringToKeys binds.key binds.modifiers)) hinv.1
          exact ⟨hsub.1, fun e he => hinv.2 e (hsub.2 e he)⟩

/-- From the empty registry, every sequence of calls of the three entry
points in which each `RegisterHotkeyJS` call has one of the two event types
of the interface leaves every stored hotkey with at least one populated
slot: the empty hotkey of C15 comes from the other event types alone. -/
theorem slots_populated_under_interface_event_types (calls : List RegistryCall)
    (hvalid : ∀ mem binds, RegistryCall.register mem binds ∈ calls →
      binds.eventType = "registerKeydown" ∨ binds.eventType = "registerKeyup") :
    ∀ e ∈ (runCalls calls gThreadData_init).hotkeys,
      e.2.cbDown.isSome ∨ e.2.cbUp.isSome := by
  have hgen : ∀ (cs : List RegistryCall) (td : ThreadData),
      (∀ mem binds, RegistryCall.register mem binds ∈ cs →
        binds.eventType = "registerKeydown" ∨ binds.eventType = "registerKeyup") →
      ((td.hotkeys.map Prod.fst).Nodup ∧
        ∀ e ∈ td.hotkeys, e.2.cbDown.isSome ∨ e.2.cbUp.isSome) →
      (((runCalls cs td).hotkeys.map Prod.fst).Nodup ∧
        ∀ e ∈ (runCalls cs td).hotkeys, e.2.cbDown.isSome ∨ e.2.cbUp.isSome) := by
    intro cs
    induction cs with
    | nil => intro td _ hinv; exact hinv
    | cons c rest ih =>
      intro td hv hinv
      simp only [runCalls]
      apply ih
      · intro mem binds hmem
        exact hv mem binds (List.mem_cons_of_mem _ hmem)
      · cases c with
        | register mem binds =>
          exact register_keeps_slots mem binds td
            (hv mem binds (List.mem_cons_self _ _)) hinv
        | unregister mem binds => exact unregister_keeps_slots mem binds td hinv
        | unregisterAll =>
          simp [RegistryCall.run, UnregisterHotkeysJS]
  exact (hgen calls gThreadData_init hvalid
    ⟨by simp [gThreadData_init], by simp [gThreadData_init]⟩).2

end Win32

namespace Uiohook

open event_type

/-! ## Properties of `dispatch_procB` -/

/-- C7 (the code at the failing input): `KeyC` is registered for key-down
without modifiers, so the action's modifier map is empty and its state is
released; on the key-pressed event for `VC_C`, `dispatch_procB` sends no
callback and the action stays released. -/
theorem C7_bare_key_press_does_not_fire :
    (RegisterHotkeyJS keyC_down_bare (storeStringKeyCodes Globals.init)).2 = some true ∧
    (RegisterHotkeyJS keyC_down_bare
      (storeStringKeyCodes Globals.init)).1.pressedKeyEventCallbacks =
      [{ m_event := EVENT_KEY_PRESSED, m_codeEvent := { key := VC_C, modifiers := [] }
         m_currentState := EVENT_KEY_RELEASED, m_js_callBack := 1 }] ∧
    (dispatch_procB { type := EVENT_KEY_PRESSED, keycode := VC_C }
      (RegisterHotkeyJS keyC_down_bare (storeStringKeyCodes Globals.init)).1).2 = [] ∧
    (dispatch_procB { type := EVENT_KEY_PRESSED, keycode := VC_C }
      (RegisterHotkeyJS keyC_down_bare
        (storeStringKeyCodes Globals.init)).1).1.pressedKeyEventCallbacks =
      [{ m_event := EVENT_KEY_PRESSED, m_codeEvent := { key := VC_C, modifiers := [] }
         m_currentState := EVENT_KEY_RELEASED, m_js_callBack := 1 }] := by
  decide

/-- C8 (the code at the failing input): with Control pressed and Shift
released in the modifier table, the key-pressed event for `VC_C` fires the
hotkey Control + Shift + `KeyC` (callback 1), registered alone; and with the
hotkey Control + `KeyC` (callback 2) registered after it, callback 1 is sent
and callback 2 is not. -/
theorem C8_fires_with_required_modifier_released :
    (g_ctrl_shift_C_ctrl_down.modifiers.lookup VC_CONTROL_L = some EVENT_KEY_PRESSED ∧
      g_ctrl_shift_C_ctrl_down.modifiers.lookup VC_SHIFT_L = some EVENT_KEY_RELEASED ∧
      g_ctrl_shift_C_ctrl_down.modifiers.lookup VC_SHIFT_R = some EVENT_KEY_RELEASED) ∧
    (dispatch_procB { type := EVENT_KEY_PRESSED, keycode := VC_C }
      g_ctrl_shift_C_ctrl_down).2 = [1] ∧
    (dispatch_procB { type := EVENT_KEY_PRESSED, keycode := VC_C }
      (dispatch_procB { type := EVENT_KEY_PRESSED, keycode := VC_CONTROL_L }
        (RegisterHotkeyJS keyC_down_ctrl g_ctrl_shift_C).1).1).2 = [1] := by
  decide

/-- C10 (counterexample): two hotkeys Control + `KeyC` are registered for
key-down (callbacks 1 and 2) and Control is pressed; both are released and
both pass the firing test of the key-pressed event for `VC_C`, and
`dispatch_procB` sends callback 1 alone. -/
theorem C10_second_match_does_not_fire :
    (g_two_ctrl_C.pressedKeyEventCallbacks.map
      (fun a => (pressedCandidate VC_C a && pressedFires a, a.m_js_callBack))) =
      [(true, 1), (true, 2)] ∧
    (dispatch_procB { type := EVENT_KEY_PRESSED, keycode := VC_C } g_two_ctrl_C).2 = [1] ∧
    (dispatch_procB { type := EVENT_KEY_PRESSED, keycode := VC_C } g_two_ctrl_C).2 ≠
      [1, 2] := by
  decide

/-- The key-pressed loop sends the callback of the first action that passes
both tests, and nothing when there is none. -/
theorem pressedLoop_sent (keycode : Nat) (actions : List Action) :
    (pressedLoop keycode actions).2 =
      ((actions.find? (fun a => pressedCandidate keycode a && pressedFires a)).map
        (fun a => a.m_js_callBack)).toList := by
  induction actions with
  | nil => rfl
  | cons a rest ih =>
    unfold pressedLoop
    cases hc : pressedCandidate keycode a <;> cases hf : pressedFires a <;>
      simp [List.find?, hc, hf, ih]

/-- The key-released loop sends the callback of the first action that
matches, and nothing when there is none. -/
theorem releasedLoop_sent (keycode : Nat) (actions : List Action) :
    releasedLoop keycode actions =
      ((actions.find? (fun a =>
          decide (a.m_event = EVENT_KEY_RELEASED ∧ keycode = a.m_codeEvent.key))).map
        (fun a => a.m_js_callBack)).toList := by
  induction actions with
  | nil => rfl
  | cons a rest ih =>
    unfold releasedLoop
    by_cases h : a.m_event = EVENT_KEY_RELEASED ∧ keycode = a.m_codeEvent.key
    · simp [List.find?, h]
    · simp only [List.find?, h, if_false, decide_False]
      exact ih

/-- C10 (amended): whatever is registered, `dispatch_procB` sends at most one
callback per raw key event: on a key-pressed event that of the first action
of `pressedKeyEventCallbacks`, in list order, that passes the firing test, and
on a key-released event that of the first action of
`releasedKeyEventCallbacks` registered for the key; later matching actions do
not fire. -/
theorem C10_only_first_match_fires (keycode : Nat) (g : Globals) :
    (dispatch_procB { type := EVENT_KEY_PRESSED, keycode := keycode } g).2 =
      ((g.pressedKeyEventCallbacks.find?
          (fun a => pressedCandidate keycode a && pressedFires a)).map
        (fun a => a.m_js_callBack)).toList ∧
    (dispatch_procB { type := EVENT_KEY_RELEASED, keycode := keycode } g).2 =
      ((g.releasedKeyEventCallbacks.find? (fun a =>
          decide (a.m_event = EVENT_KEY_RELEASED ∧ keycode = a.m_codeEvent.key))).map
        (fun a => a.m_js_callBack)).toList := by
  constructor
  · simp only [dispatch_procB]
    exact pressedLoop_sent keycode g.pressedKeyEventCallbacks
  · simp only [dispatch_procB]
    exact releasedLoop_sent keycode g.releasedKeyEventCallbacks

/-! ## Key-released events and the modifier table -/

/-- C11 (counterexample): with two key-up hotkeys for `KeyC` registered
(callbacks 1 and 2), the key-released event for `VC_C` sends callback 1 alone;
and with the key-down hotkeys for `KeyA` and `KeyC` both armed, the
key-released event for `VC_C` leaves the hotkey for `KeyC` armed. -/
theorem C11_release_fires_first_only_and_leaves_key_armed :
    g_two_up_C.releasedKeyEventCallbacks.map
        (fun a => (a.m_event, a.m_codeEvent.key, a.m_js_callBack)) =
      [(EVENT_KEY_RELEASED, VC_C, 1), (EVENT_KEY_RELEASED, VC_C, 2)] ∧
    (dispatch_procB { type := EVENT_KEY_RELEASED, keycode := VC_C } g_two_up_C).2 = [1] ∧
    g_A_and_C_armed.pressedKeyEventCallbacks.map
        (fun a => (a.m_event, a.m_codeEvent.key, a.m_currentState)) =
      [(EVENT_KEY_PRESSED, VC_A, EVENT_KEY_PRESSED),
       (EVENT_KEY_PRESSED, VC_C, EVENT_KEY_PRESSED)] ∧
    (dispatch_procB { type := EVENT_KEY_RELEASED, keycode := VC_C }
        g_A_and_C_armed).1.pressedKeyEventCallbacks.map
        (fun a => (a.m_event, a.m_codeEvent.key, a.m_currentState)) =
      [(EVENT_KEY_PRESSED, VC_A, EVENT_KEY_RELEASED),
       (EVENT_KEY_PRESSED, VC_C, EVENT_KEY_PRESSED)] := by
  decide

/-- C11 (amended): on a key-released event for the key `keycode`, the first
action of `releasedKeyEventCallbacks`, in list order, that is registered for
key-up with that key gets its callback sent, whatever the state of any
action, and no other callback is sent. -/
theorem C11_release_fires_first_up_callback (keycode : Nat) (g : Globals)
    (before after : List Action) (a : Action)
    (hlist : g.releasedKeyEventCallbacks = before ++ a :: after)
    (hbefore : ∀ b ∈ before,
      ¬ (b.m_event = EVENT_KEY_RELEASED ∧ keycode = b.m_codeEvent.key))
    (ha : a.m_event = EVENT_KEY_RELEASED ∧ keycode = a.m_codeEvent.key) :
    (dispatch_procB { type := EVENT_KEY_RELEASED, keycode := keycode } g).2 =
      [a.m_js_callBack] := by
  simp only [dispatch_procB, hlist]
  clear hlist
  induction before with
  | nil => simp [releasedLoop, ha]
  | cons b rest ih =>
    have hb := hbefore b (List.mem_cons_self b rest)
    simp only [List.cons_append, releasedLoop, hb, if_false]
    exact ih (fun x hx => hbefore x (List.mem_cons_of_mem b hx))

/-- C11 (amended) at a concrete input: with the key-up hotkeys Control + `KeyC`
(callback 1) and Shift + `KeyC` (callback 2) registered in this order, the
key-released event for `VC_C` sends callback 1. -/
theorem C11_release_fires_first_up_callback_witness :
    g_two_up_C.releasedKeyEventCallbacks =
      [] ++
        { m_event := EVENT_KEY_RELEASED
          m_codeEvent := { key := VC_C, modifiers := eventModifiers ctrl_only }
          m_currentState := EVENT_KEY_RELEASED, m_js_callBack := 1 } ::
        [{ m_event := EVENT_KEY_RELEASED
           m_codeEvent := { key := VC_C, modifiers := eventModifiers shift_only }
           m_currentState := EVENT_KEY_RELEASED, m_js_callBack := 2 }] ∧
    (dispatch_procB { type := EVENT_KEY_RELEASED, keycode := VC_C } g_two_up_C).2 = [1] :=
  ⟨by decide,
    C11_release_fires_first_up_callback VC_C g_two_up_C []
      [{ m_event := EVENT_KEY_RELEASED
         m_codeEvent := { key := VC_C, modifiers := eventModifiers shift_only }
         m_currentState := EVENT_KEY_RELEASED, m_js_callBack := 2 }]
      { m_event := EVENT_KEY_RELEASED
        m_codeEvent := { key := VC_C, modifiers := eventModifiers ctrl_only }
        m_currentState := EVENT_KEY_RELEASED, m_js_callBack := 1 }
      (by decide) (fun b hb => by cases hb) ⟨rfl, rfl⟩⟩

/-- C12: with the hotkey Control + `KeyC` registered for key-down (callback
`down`) and for key-up (callback `up`) and nothing else registered, the
events press Control, press C, release C, release Control, with the left or
with the right Control key, send nothing, `down` once, `up` once and
nothing, in this order. -/
theorem C12_ctrl_C_press_release_sequence (down up : Callback) :
    (g_ctrl_C_both down up).pressedKeyEventCallbacks.length = 1 ∧
    (g_ctrl_C_both down up).releasedKeyEventCallbacks.length = 1 ∧
    (dispatchAll
      [{ type := EVENT_KEY_PRESSED, keycode := VC_CONTROL_L },
       { type := EVENT_KEY_PRESSED, keycode := VC_C },
       { type := EVENT_KEY_RELEASED, keycode := VC_C },
       { type := EVENT_KEY_RELEASED, keycode := VC_CONTROL_L }]
      (g_ctrl_C_both down up)).2 = [[], [down], [up], []] ∧
    (dispatchAll
      [{ type := EVENT_KEY_PRESSED, keycode := VC_CONTROL_R },
       { type := EVENT_KEY_PRESSED, keycode := VC_C },
       { type := EVENT_KEY_RELEASED, keycode := VC_C },
       { type := EVENT_KEY_RELEASED, keycode := VC_CONTROL_R }]
      (g_ctrl_C_both down up)).2 = [[], [down], [up], []] := by
  refine ⟨rfl, rfl, rfl, rfl⟩

/-- The assignment through `find` changes the state found at `key` and no
other. -/
theorem lookup_assignIfFound (m : ModifierMap) (key : Nat) (state : event_type) (k : Nat) :
    (m.assignIfFound key state).lookup k =
      if k = key then (m.lookup k).map (fun _ => state) else m.lookup k := by
  induction m with
  | nil => simp [ModifierMap.assignIfFound]
  | cons e rest ih =>
    obtain ⟨k0, v0⟩ := e
    have ih2 : List.lookup k (List.map (fun e => if e.1 = key then (e.1, state) else e) rest) =
        if k = key then (List.lookup k rest).map (fun _ => state) else List.lookup k rest := ih
    show List.lookup k ((if k0 = key then (k0, state) else (k0, v0)) ::
        List.map (fun e => if e.1 = key then (e.1, state) else e) rest) = _
    by_cases h0 : k0 = key
    · rw [if_pos h0]
      by_cases hk : k = k0
      · subst hk
        simp [List.lookup, h0]
      · have hb : (k == k0) = false := by simpa using hk
        simp only [List.lookup, hb, ih2]
    · rw [if_neg h0]
      by_cases hk : k = k0
      · subst hk
        simp [List.lookup, h0]
      · have hb : (k == k0) = false := by simpa using hk
        simp only [List.lookup, hb, ih2]

/-- The assignment through `find` keeps the keys of the map. -/
theorem keys_assignIfFound (m : ModifierMap) (key : Nat) (state : event_type) :
    (m.assignIfFound key state).map Prod.fst = m.map Prod.fst := by
  induction m with
  | nil => rfl
  | cons e rest ih =>
    have ih2 : List.map Prod.fst
        (List.map (fun e => if e.1 = key then (e.1, state) else e) rest) =
        List.map Prod.fst rest := ih
    show List.map Prod.fst ((if e.1 = key then (e.1, state) else e) ::
        List.map (fun e => if e.1 = key then (e.1, state) else e) rest) = _
    by_cases h : e.1 = key
    · rw [if_pos h, List.map_cons, List.map_cons, ih2]
    · rw [if_neg h, List.map_cons, List.map_cons, ih2]

/-- C17 (counterexample): in the table of eight released entries that start-up
builds, `updateModifierState(VC_SHIFT_L, EVENT_KEY_PRESSED)` sets the entry of
the right Shift key to pressed as well. -/
theorem C17_left_shift_sets_right_shift :
    (storeStringKeyCodes Globals.init).modifiers.lookup VC_SHIFT_R =
      some EVENT_KEY_RELEASED ∧
    (updateModifierState VC_SHIFT_L EVENT_KEY_PRESSED
      (storeStringKeyCodes Globals.init).modifiers).lookup VC_SHIFT_L =
      some EVENT_KEY_PRESSED ∧
    (updateModifierState VC_SHIFT_L EVENT_KEY_PRESSED
      (storeStringKeyCodes Globals.init).modifiers).lookup VC_SHIFT_R =
      some EVENT_KEY_PRESSED := by
  decide

/-- C17 (amended): `updateModifierState(key, state)` keeps the keys of the
modifier table, and the entry of a code `k` is set to `state` exactly when
`key` and `k` are the left or right code of the same modifier (Shift,
Control, Alt or Meta); every other entry is unchanged, and a `key` that is
none of the eight codes changes no entry. -/
theorem C17_update_sets_both_sides (key : Nat) (state : event_type) (m : ModifierMap)
    (k : Nat) :
    (updateModifierState key state m).map Prod.fst = m.map Prod.fst ∧
    (updateModifierState key state m).lookup k =
      if ((key = VC_SHIFT_L ∨ key = VC_SHIFT_R) ∧ (k = VC_SHIFT_L ∨ k = VC_SHIFT_R)) ∨
          ((key = VC_CONTROL_L ∨ key = VC_CONTROL_R) ∧
            (k = VC_CONTROL_L ∨ k = VC_CONTROL_R)) ∨
          ((key = VC_ALT_L ∨ key = VC_ALT_R) ∧ (k = VC_ALT_L ∨ k = VC_ALT_R)) ∨
          ((key = VC_META_L ∨ key = VC_META_R) ∧ (k = VC_META_L ∨ k = VC_META_R))
      then (m.lookup k).map (fun _ => state)
      else m.lookup k := by
  constructor
  · unfold updateModifierState
    simp only []
    split_ifs <;> simp only [keys_assignIfFound]
  · unfold updateModifierState
    simp only [VC_SHIFT_L, VC_SHIFT_R, VC_CONTROL_L, VC_CONTROL_R, VC_ALT_L, VC_ALT_R,
      VC_META_L, VC_META_R]
    by_cases h1 : key = 42 ∨ key = 54 <;> by_cases h2 : key = 29 ∨ key = 3613 <;>
      by_cases h3 : key = 56 ∨ key = 3640 <;> by_cases h4 : key = 3675 ∨ key = 3676 <;>
      simp only [h1, h2, h3, h4, if_true, if_false, lookup_assignIfFound, true_and,
        false_and, or_false, false_or] <;>
      first
        | rfl
        | omega
        | (split_ifs <;> first | rfl | omega)

end Uiohook

end Hook
